import Mathlib

/-!
Verification development for `tracker.c`.

A shallow embedding of the time-tracker record store (`src/tracker.c`): the
fixed-width row codec, the pager, row addressing, the open/close life cycle and
the statement front end, followed by theorems about them.

Modelling conventions

* A byte is a `Nat`; a C character array is a `List Nat`; a C string is the
  prefix of its array up to the first zero byte (`cstr`).
* Raw memory reached through a `void*` is an address-indexed map `Mem`; a
  pointer into a page is a byte offset into that page's `Mem`.
* The backing file is the list of its bytes.  Reads and writes on it never
  fail in the model, so the `exit` branches guarded by a `-1` result of
  `read`, `write`, `lseek`, `open` or `close` are not taken.
* `exit(EXIT_FAILURE)` and an access past the end of `pages[]` are the two
  values of `Fault`; every function that can reach one returns `Except Fault`.
* `malloc` returns uninitialised memory: its contents are the `heap`
  component of the pager, about which nothing is assumed.
* A `float` is carried as its four-byte object representation; arithmetic on
  floats is a parameter (`FloatOps`) of the operations that use it.
* The rows a table stores are read off the bytes of its pages and file by
  `storedRows`, which goes through none of `getPage`, `getRowSlot` and
  `deserializeRow`; statements about scans are made against it.
-/

namespace Tracker

/-! ## Constants (`tracker.c` 11-15, 74-85) -/

def COLUMN_TASK_SIZE : Nat := 32
def COLUMN_DATE_SIZE : Nat := 32
def TABLE_MAX_PAGES : Nat := 100

/-- Size of `char task[COLUMN_TASK_SIZE+1]`. -/
def TASK_SIZE : Nat := COLUMN_TASK_SIZE + 1
/-- Size of a `float`. -/
def HOURS_SIZE : Nat := 4
/-- Size of `char date[COLUMN_DATE_SIZE+1]`. -/
def DATE_SIZE : Nat := COLUMN_DATE_SIZE + 1
def TASK_OFFSET : Nat := 0
def HOURS_OFFSET : Nat := TASK_OFFSET + TASK_SIZE
def DATE_OFFSET : Nat := HOURS_OFFSET + HOURS_SIZE
def ROW_SIZE : Nat := TASK_SIZE + HOURS_SIZE + DATE_SIZE
def PAGE_SIZE : Nat := 4096
def ROWS_PER_PAGE : Nat := PAGE_SIZE / ROW_SIZE
def TABLE_MAX_ROWS : Nat := ROWS_PER_PAGE * TABLE_MAX_PAGES

/-! ## Bytes, strings and raw memory -/

/-- Raw memory behind a pointer: the byte stored at each offset. -/
abbrev Mem := Nat → Nat

/-- Store `data` at offsets `off, off+1, ...` of `m`. -/
def memWrite (m : Mem) (off : Nat) (data : List Nat) : Mem :=
  fun a => if off ≤ a ∧ a < off + data.length then data.getD (a - off) 0 else m a

/-- The `n` bytes of `m` starting at offset `off`. -/
def memRead (m : Mem) (off n : Nat) : List Nat :=
  (List.range n).map (fun i => m (off + i))

/-- The `n` bytes `memcpy` reads from the object `src`. -/
def memcpy (src : List Nat) (n : Nat) : List Nat :=
  (List.range n).map (fun i => src.getD i 0)

/-- The text of a character array: the bytes before the first zero byte. -/
def cstr (buf : List Nat) : List Nat :=
  buf.takeWhile (fun c => c ≠ 0)

/-- The `n` bytes `strncpy(dst, src, n)` stores: the text of `src` cut at `n`
bytes, then zero bytes up to `n`. -/
def strncpy (src : List Nat) (n : Nat) : List Nat :=
  (cstr src).take n ++ List.replicate (n - ((cstr src).take n).length) 0

/-- The array `dst` after `strcpy(dst, src)`: the text of `src`, a zero byte,
then what `dst` held further on.  The result is longer than `dst` exactly when
the copy runs past the end of `dst`. -/
def strcpy (dst src : List Nat) : List Nat :=
  cstr src ++ 0 :: dst.drop ((cstr src).length + 1)

/-- Embeds `strcmp`: the difference at the first position where the two strings
differ, `0` when they are equal.  The end of an array counts as a terminator. -/
def strcmp : List Nat → List Nat → Int
  | [], [] => 0
  | [], b :: _ => - (b : Int)
  | a :: _, [] => (a : Int)
  | a :: as, b :: bs =>
    if a ≠ b then (a : Int) - (b : Int) else if a = 0 then 0 else strcmp as bs

/-- Embeds `strncmp`: `strcmp` on at most the first `n` bytes. -/
def strncmp (a b : List Nat) (n : Nat) : Int :=
  strcmp (a.take n) (b.take n)

/-! ## Rows and the row codec (`tracker.c` 56-60, 131-142) -/

/-- Embeds `Row`: `task` and `date` are the character arrays, `hours` the four bytes
of the `float`. -/
structure Row where
  task : List Nat
  hours : List Nat
  date : List Nat

/-- A row whose fields have their declared sizes and whose two texts are
terminated inside their arrays. -/
def Row.Valid (r : Row) : Prop :=
  r.task.length = TASK_SIZE ∧ 0 ∈ r.task ∧ r.hours.length = HOURS_SIZE ∧
    r.date.length = DATE_SIZE ∧ 0 ∈ r.date

/-- Embeds `serializeRow(source, destination)`, with `destination` the offset `dest`
into the memory `m`. -/
def serializeRow (source : Row) (m : Mem) (dest : Nat) : Mem :=
  let m1 := memWrite m (dest + TASK_OFFSET) (strncpy source.task TASK_SIZE)
  let m2 := memWrite m1 (dest + HOURS_OFFSET) (memcpy source.hours HOURS_SIZE)
  memWrite m2 (dest + DATE_OFFSET) (memcpy source.date DATE_SIZE)

/-- Embeds `deserializeRow(source, destination)`, with `source` the offset `src` into
`m`.  All three fields of the destination row are overwritten, so the row
that results does not depend on what the destination held. -/
def deserializeRow (m : Mem) (src : Nat) : Row :=
  { task := memRead m (src + TASK_OFFSET) TASK_SIZE
    hours := memRead m (src + HOURS_OFFSET) HOURS_SIZE
    date := memRead m (src + DATE_OFFSET) DATE_SIZE }

/-! ## Results, faults and the float parameter (`tracker.c` 21-43) -/

inductive MetaCommandResult where
  | META_COMMAND_SUCCESS
  | META_COMMAND_UNRECOGNIZED_COMMAND
  deriving DecidableEq, Repr

inductive ExecuteResult where
  | EXECUTE_SUCCESS
  | EXECUTE_TABLE_FULL
  deriving DecidableEq, Repr

inductive PrepareResult where
  | PREPARE_SUCCESS
  | PREPARE_SYNTAX_ERROR
  | PREPARE_UNRECOGNIZED_STATEMENT
  | PREPARE_STRING_TOO_LONG
  deriving DecidableEq, Repr

inductive StatementType where
  | STATEMENT_INSERT
  | STATEMENT_SELECT
  | STATEMENT_TOTAL
  | STATEMENT_AVERAGE
  deriving DecidableEq, Repr

/-- The two ways a call can fail to return: `exit(EXIT_FAILURE)`, and an
access to `pages[i]` with `i` past the end of the array (undefined behaviour). -/
inductive Fault where
  | exitFailure
  | outOfBounds
  deriving DecidableEq, Repr

/-- A system call issued on the backing file. -/
inductive FileOp where
  | read (offset count : Nat)
  | write (offset count : Nat)
  deriving DecidableEq, Repr

/-- Float arithmetic used by the program, on four-byte representations:
conversion from an integer, `+` and `/`; a converted integer occupies the four
bytes of a `float`. -/
structure FloatOps where
  ofInt : Int → List Nat
  add : List Nat → List Nat → List Nat
  div : List Nat → List Nat → List Nat
  ofInt_length : ∀ n, (ofInt n).length = HOURS_SIZE

/-! ## Pager, table, statement (`tracker.c` 49-71) -/

/-- Embeds `Pager`.  `file` is the content of the file behind `fileDescriptor`,
`heap n` the uninitialised block `malloc` hands out for slot `n`, `trace` the
reads and writes issued so far, latest first. -/
structure Pager where
  file : List Nat
  fileLength : Nat
  pages : Nat → Option Mem
  heap : Nat → Mem
  trace : List FileOp

structure Table where
  pager : Pager
  numRows : Nat

structure Statement where
  type : StatementType
  rowToInsert : Row
  selectedTask : List Nat

/-- A line printed by the program; a float argument is carried unformatted, and
a text of a row is `none` when the row does not determine it (see `printed`). -/
inductive Output where
  | row (task : Option (List Nat)) (hours : List Nat) (date : Option (List Nat))
  | total (task value : List Nat)
  | average (task value : List Nat)
  | globalAverage (value : List Nat)
  | stringTooLong
  | syntaxError
  | unrecognizedKeyword (line : List Nat)
  | unrecognizedCommand (line : List Nat)
  | tableFull

/-- The loop `for (uint32_t i = 0; i < n; i++) body`, threading the state `s`. -/
def forLoop {σ : Type} : Nat → (Nat → σ → Except Fault σ) → σ → Except Fault σ
  | 0, _, s => pure s
  | n + 1, body, s => do
    let s' ← forLoop n body s
    body n s'

/-! ## File and pager operations (`tracker.c` 154-244, 400-432) -/

/-- What `read` delivers for `n` bytes at offset `off`: short at end of file. -/
def fileRead (file : List Nat) (off n : Nat) : List Nat :=
  (file.drop off).take n

/-- The file after `write` of `data` at offset `off`; a gap between the old end
of file and `off` reads as zero bytes. -/
def fileWrite (file : List Nat) (off : Nat) (data : List Nat) : List Nat :=
  file.take off ++ List.replicate (off - file.length) 0 ++ data ++
    file.drop (off + data.length)

/-- The access `pager->pages[i]`; the array has `TABLE_MAX_PAGES` elements. -/
def pageAt (pager : Pager) (i : Nat) : Except Fault (Option Mem) :=
  if i < TABLE_MAX_PAGES then pure (pager.pages i) else throw Fault.outOfBounds

/-- The assignment `pager->pages[i] = v`. -/
def setPage (pager : Pager) (i : Nat) (v : Option Mem) : Pager :=
  { pager with pages := Function.update pager.pages i v }

/-- Embeds `getPage(pager, pageNum)`: the page returned and the pager afterwards. -/
def getPage (pager : Pager) (pageNum : Nat) : Except Fault (Mem × Pager) :=
  if pageNum > TABLE_MAX_PAGES then throw Fault.exitFailure
  else do
    let slot ← pageAt pager pageNum
    match slot with
    | some page => pure (page, pager)
    | none =>
      let page := pager.heap pageNum
      let numPages := pager.fileLength / PAGE_SIZE +
        (if pager.fileLength % PAGE_SIZE ≠ 0 then 1 else 0)
      if pageNum ≤ numPages then
        let page' := memWrite page 0 (fileRead pager.file (pageNum * PAGE_SIZE) PAGE_SIZE)
        pure (page', { setPage pager pageNum (some page') with
          trace := FileOp.read (pageNum * PAGE_SIZE) PAGE_SIZE :: pager.trace })
      else
        pure (page, setPage pager pageNum (some page))

/-- Embeds `pagerFlush(pager, pageNum, size)`. -/
def pagerFlush (pager : Pager) (pageNum size : Nat) : Except Fault Pager := do
  let slot ← pageAt pager pageNum
  match slot with
  | none => throw Fault.exitFailure
  | some page =>
    pure { pager with
      file := fileWrite pager.file (pageNum * PAGE_SIZE) (memRead page 0 size)
      trace := FileOp.write (pageNum * PAGE_SIZE) size :: pager.trace }

/-- Body of the first loop of `closeDB`: flush and release a full page. -/
def closeFullPage (i : Nat) (pager : Pager) : Except Fault Pager := do
  let slot ← pageAt pager i
  match slot with
  | none => pure pager
  | some _ =>
    let pager' ← pagerFlush pager i PAGE_SIZE
    pure (setPage pager' i none)

/-- Body of the last loop of `closeDB`: release whatever is still allocated. -/
def freePage (i : Nat) (pager : Pager) : Except Fault Pager := do
  let slot ← pageAt pager i
  match slot with
  | none => pure pager
  | some _ => pure (setPage pager i none)

/-- The step of `closeDB` between its two loops: flush and release the
trailing page when it holds `numAdditionalRows > 0` rows and is allocated. -/
def closeTailPage (numFullPages numAdditionalRows : Nat) (pager : Pager) :
    Except Fault Pager :=
  if numAdditionalRows > 0 then do
    let slot ← pageAt pager numFullPages
    match slot with
    | some _ =>
      let pager' ← pagerFlush pager numFullPages (numAdditionalRows * ROW_SIZE)
      pure (setPage pager' numFullPages none)
    | none => pure pager
  else pure pager

/-- Embeds `closeDB(table)`.  The result is the pager as it stands when it is freed;
its `file` is the file left on disk and its `trace` the calls issued. -/
def closeDB (table : Table) : Except Fault Pager := do
  let numFullPages := table.numRows / ROWS_PER_PAGE
  let pager1 ← forLoop numFullPages closeFullPage table.pager
  let numAdditionalRows := table.numRows % ROWS_PER_PAGE
  let pager2 ← closeTailPage numFullPages numAdditionalRows pager1
  forLoop TABLE_MAX_PAGES freePage pager2

/-- Embeds `pagerOpen(filename)` on the file with content `file` (empty when the file
is created by the call); `fileLength` is the `uint32_t` the length is stored
in. -/
def pagerOpen (file : List Nat) (heap : Nat → Mem) : Pager :=
  { file := file
    fileLength := file.length % 2 ^ 32
    pages := fun _ => none
    heap := heap
    trace := [] }

/-- Embeds `openDB(filename)`. -/
def openDB (file : List Nat) (heap : Nat → Mem) : Table :=
  let pager := pagerOpen file heap
  { pager := pager, numRows := pager.fileLength / ROW_SIZE }

/-! ## Row addressing and execution (`tracker.c` 99-101, 246-253, 332-398) -/

/-- The pointer `getRowSlot` returns: the page it points into (index and
content) and the byte offset inside that page. -/
structure RowSlot where
  pageNum : Nat
  page : Mem
  byteOffset : Nat

/-- Embeds `getRowSlot(table, rowNum)`: the slot, and the table with the pager as
`getPage` left it. -/
def getRowSlot (table : Table) (rowNum : Nat) : Except Fault (RowSlot × Table) := do
  let pageNum := rowNum / ROWS_PER_PAGE
  let (page, pager) ← getPage table.pager pageNum
  let rowOffset := rowNum % ROWS_PER_PAGE
  let byteOffset := rowOffset * ROW_SIZE
  pure ({ pageNum := pageNum, page := page, byteOffset := byteOffset },
        { table with pager := pager })

/-- What `printf("%s", ...)` prints for a character array that is a struct
member: the bytes before the first zero byte.  When the array holds no zero
byte `printf` reads on past its end and what it prints is not determined by the
array: `none`. -/
def printed (buf : List Nat) : Option (List Nat) :=
  if 0 ∈ buf then some (cstr buf) else none

/-- Embeds `printRow(row)`: the two texts and the float handed to `printf`. -/
def printRow (row : Row) : Output :=
  Output.row (printed row.task) row.hours (printed row.date)

/-- Embeds `executeInsert(statement, table)`. -/
def executeInsert (statement : Statement) (table : Table) :
    Except Fault (ExecuteResult × Table) :=
  if table.numRows ≥ TABLE_MAX_ROWS then
    pure (ExecuteResult.EXECUTE_TABLE_FULL, table)
  else do
    let (slot, table1) ← getRowSlot table table.numRows
    let page' := serializeRow statement.rowToInsert slot.page slot.byteOffset
    pure (ExecuteResult.EXECUTE_SUCCESS,
      { pager := setPage table1.pager slot.pageNum (some page')
        numRows := table1.numRows + 1 })

/-- Embeds `deserializeRow(getRowSlot(table, i), &row)`, the first statement of the
three scanning loops. -/
def fetchRow (table : Table) (i : Nat) : Except Fault (Row × Table) := do
  let (slot, table1) ← getRowSlot table i
  pure (deserializeRow slot.page slot.byteOffset, table1)

/-- Body of the loop of `executeSelect`: decode row `i` and print it. -/
def selectBody (i : Nat) (s : List Output × Table) : Except Fault (List Output × Table) := do
  let (row, t) ← fetchRow s.2 i
  pure (s.1 ++ [printRow row], t)

/-- Embeds `executeSelect(statement, table)`: result, lines printed, table afterwards. -/
def executeSelect (_statement : Statement) (table : Table) :
    Except Fault (ExecuteResult × List Output × Table) := do
  let (out, table1) ← forLoop table.numRows selectBody ([], table)
  pure (ExecuteResult.EXECUTE_SUCCESS, out, table1)

/-- The `if` statement in the loop of `executeTotal`: add the row's hours to
`total` when its task compares equal to the selected one. -/
def totalStep (fl : FloatOps) (selectedTask : List Nat) (total : List Nat) (row : Row) :
    List Nat :=
  if strcmp row.task selectedTask = 0 then fl.add total row.hours else total

/-- Body of the loop of `executeTotal`: decode row `i`, then `totalStep`. -/
def totalBody (fl : FloatOps) (statement : Statement) (i : Nat) (s : List Nat × Table) :
    Except Fault (List Nat × Table) := do
  let (row, t) ← fetchRow s.2 i
  pure (totalStep fl statement.selectedTask s.1 row, t)

/-- Embeds `executeTotal(statement, table)`. -/
def executeTotal (fl : FloatOps) (statement : Statement) (table : Table) :
    Except Fault (ExecuteResult × List Output × Table) := do
  let (total, table1) ← forLoop table.numRows (totalBody fl statement) (fl.ofInt 0, table)
  pure (ExecuteResult.EXECUTE_SUCCESS,
    [Output.total (cstr statement.selectedTask) total], table1)

/-- The string literal `"*"`. -/
def starLit : List Nat := [42, 0]

/-- The `if` statement in the loop of `executeAverage`, on the pair
`(total, rows)`: when the selected task is `"*"` or the row's task compares
equal to it, add the row's hours to `total` and one to `rows`. -/
def averageStep (fl : FloatOps) (selectedTask : List Nat) (acc : List Nat × Nat) (row : Row) :
    List Nat × Nat :=
  if strcmp selectedTask starLit = 0 ∨ strcmp row.task selectedTask = 0 then
    (fl.add acc.1 row.hours, acc.2 + 1)
  else acc

/-- Body of the loop of `executeAverage`: decode row `i`, then `averageStep`. -/
def averageBody (fl : FloatOps) (statement : Statement) (i : Nat)
    (s : (List Nat × Nat) × Table) : Except Fault ((List Nat × Nat) × Table) := do
  let (row, t) ← fetchRow s.2 i
  pure (averageStep fl statement.selectedTask s.1 row, t)

/-- The line `executeAverage` prints for the final `total` and `rows`. -/
def averageLine (fl : FloatOps) (selectedTask : List Nat) (acc : List Nat × Nat) : Output :=
  if ¬ (strcmp selectedTask starLit = 0) then
    Output.average (cstr selectedTask) (fl.div acc.1 (fl.ofInt acc.2))
  else
    Output.globalAverage (fl.div acc.1 (fl.ofInt acc.2))

/-- Embeds `executeAverage(statement, table)`. -/
def executeAverage (fl : FloatOps) (statement : Statement) (table : Table) :
    Except Fault (ExecuteResult × List Output × Table) := do
  let (acc, table1) ← forLoop table.numRows (averageBody fl statement)
    ((fl.ofInt 0, 0), table)
  pure (ExecuteResult.EXECUTE_SUCCESS, [averageLine fl statement.selectedTask acc], table1)

/-- Body of the loop all three scans share: decode row `i` and keep it. -/
def scanBody (i : Nat) (s : List Row × Table) : Except Fault (List Row × Table) := do
  let (row, t) ← fetchRow s.2 i
  pure (s.1 ++ [row], t)

/-- The rows a scan `for (i = 0; i < numRows; i++) deserializeRow(getRowSlot(table, i), &row)`
decodes, in index order, and the table afterwards. -/
def scanRows (table : Table) : Except Fault (List Row × Table) :=
  forLoop table.numRows scanBody ([], table)

/-- Embeds `executeStatement(statement, table)`. -/
def executeStatement (fl : FloatOps) (statement : Statement) (table : Table) :
    Except Fault (ExecuteResult × List Output × Table) :=
  match statement.type with
  | StatementType.STATEMENT_INSERT => do
    let (res, t) ← executeInsert statement table
    pure (res, [], t)
  | StatementType.STATEMENT_SELECT => executeSelect statement table
  | StatementType.STATEMENT_TOTAL => executeTotal fl statement table
  | StatementType.STATEMENT_AVERAGE => executeAverage fl statement table

/-! ## Statement preparation and the command loop (`tracker.c` 255-330, 437-484) -/

/-- One call of `strtok(..., " ")` on what is left of the string: the token it
returns (`none` for `NULL`) and what is left for the next call. -/
def strtok (rest : List Nat) : Option (List Nat) × List Nat :=
  match rest.dropWhile (fun c => c = 32) with
  | [] => (none, [])
  | c :: cs =>
    (some ((c :: cs).takeWhile (fun d => d ≠ 32)),
      ((c :: cs).dropWhile (fun d => d ≠ 32)).drop 1)

/-- Embeds `isspace` in the C locale. -/
def isspace (c : Nat) : Bool :=
  c = 32 || (9 ≤ c && c ≤ 13)

/-- The digit loop of `atoi`: `acc` is the value read so far. -/
def atoiDigits : List Nat → Int → Int
  | [], acc => acc
  | c :: cs, acc =>
    if 48 ≤ c ∧ c ≤ 57 then atoiDigits cs (acc * 10 + ((c : Int) - 48)) else acc

/-- The value `strtol` returns for the exact value `v`: saturated at the range
of a 64-bit `long`. -/
def clampLong (v : Int) : Int :=
  if v > 9223372036854775807 then 9223372036854775807
  else if v < -9223372036854775808 then -9223372036854775808
  else v

/-- The conversion of a `long` to the 32-bit `int`: its low 32 bits, read as
two's complement. -/
def toInt32 (v : Int) : Int :=
  (v + 2147483648) % 4294967296 - 2147483648

/-- Embeds `atoi`: leading white space, an optional sign, then decimal digits up to
the first other character.  C leaves the result undefined when the number does
not fit an `int`; the value here is the one the C library computes, `atoi(s)`
being `(int) strtol(s, NULL, 10)`. -/
def atoi (s : List Nat) : Int :=
  toInt32 (clampLong
    (match s.dropWhile isspace with
      | 45 :: cs => - atoiDigits cs 0
      | 43 :: cs => atoiDigits cs 0
      | cs => atoiDigits cs 0))

/-- The token the second `strtok` call of a `prepare` function returns. -/
def taskToken (line : List Nat) : Option (List Nat) :=
  (strtok (strtok (cstr line)).2).1

/-- The token the third `strtok` call of `prepareInsert` returns. -/
def hoursToken (line : List Nat) : Option (List Nat) :=
  (strtok (strtok (strtok (cstr line)).2).2).1

/-- Embeds `prepareInsert(inputBuffer, statement)`.  `line` is the content of the
input buffer, `now` the string `asctime` returns, `statement` what the
caller's variable held before the call. -/
def prepareInsert (fl : FloatOps) (now : List Nat) (line : List Nat) (statement : Statement) :
    PrepareResult × Statement :=
  let statement := { statement with type := StatementType.STATEMENT_INSERT }
  let (_keyword, rest1) := strtok (cstr line)
  let (task, rest2) := strtok rest1
  let (hours_string, _) := strtok rest2
  match task, hours_string with
  | some task, some hours_string =>
    let hours := atoi hours_string
    if task.length > COLUMN_TASK_SIZE then
      (PrepareResult.PREPARE_STRING_TOO_LONG, statement)
    else
      (PrepareResult.PREPARE_SUCCESS,
        { statement with
          rowToInsert :=
            { task := strcpy statement.rowToInsert.task task
              hours := fl.ofInt hours
              date := strcpy statement.rowToInsert.date now } })
  | _, _ => (PrepareResult.PREPARE_SYNTAX_ERROR, statement)

/-- Embeds `prepareTotal(inputBuffer, statement)`. -/
def prepareTotal (line : List Nat) (statement : Statement) : PrepareResult × Statement :=
  let statement := { statement with type := StatementType.STATEMENT_TOTAL }
  let (_keyword, rest1) := strtok (cstr line)
  let (task, _) := strtok rest1
  match task with
  | none => (PrepareResult.PREPARE_SYNTAX_ERROR, statement)
  | some task =>
    (PrepareResult.PREPARE_SUCCESS,
      { statement with selectedTask := strcpy statement.selectedTask task })

/-- Embeds `prepareAverage(inputBuffer, statement)`. -/
def prepareAverage (line : List Nat) (statement : Statement) : PrepareResult × Statement :=
  let statement := { statement with type := StatementType.STATEMENT_AVERAGE }
  let (_keyword, rest1) := strtok (cstr line)
  let (task, _) := strtok rest1
  let task := match task with
    | none => starLit
    | some task => task
  (PrepareResult.PREPARE_SUCCESS,
    { statement with selectedTask := strcpy statement.selectedTask task })

/-- The string literals of `prepareStatement` and `doMetaCommand`. -/
def insertLit : List Nat := [105, 110, 115, 101, 114, 116, 0]
def selectLit : List Nat := [115, 101, 108, 101, 99, 116, 0]
def totalLit : List Nat := [116, 111, 116, 97, 108, 0]
def averageLit : List Nat := [97, 118, 101, 114, 97, 103, 101, 0]
def exitLit : List Nat := [46, 101, 120, 105, 116, 0]

/-- Embeds `prepareStatement(inputBuffer, statement)`. -/
def prepareStatement (fl : FloatOps) (now : List Nat) (line : List Nat) (statement : Statement) :
    PrepareResult × Statement :=
  if strncmp line insertLit 6 = 0 then prepareInsert fl now line statement
  else if strcmp line selectLit = 0 then
    (PrepareResult.PREPARE_SUCCESS, { statement with type := StatementType.STATEMENT_SELECT })
  else if strncmp line totalLit 5 = 0 then prepareTotal line statement
  else if strncmp line averageLit 7 = 0 then prepareAverage line statement
  else (PrepareResult.PREPARE_UNRECOGNIZED_STATEMENT, statement)

/-- What one turn of the loop in `main` needs from outside the program: the
string `asctime` would return and the indeterminate content of the local
variable `statement`. -/
structure Env where
  now : List Nat
  stack : Statement

/-- How one turn of the loop in `main` ends: back at the prompt with the table
and the lines printed, or the process left through `.exit` after `closeDB`. -/
inductive Step where
  | next (table : Table) (out : List Output)
  | exited (pager : Pager)

/-- One turn of the loop in `main` on the input line `line`. -/
def mainStep (fl : FloatOps) (env : Env) (table : Table) (line : List Nat) :
    Except Fault Step :=
  if line.head? = some 46 then
    if strcmp line exitLit = 0 then do
      let pager ← closeDB table
      pure (Step.exited pager)
    else pure (Step.next table [Output.unrecognizedCommand line])
  else
    match prepareStatement fl env.now line env.stack with
    | (PrepareResult.PREPARE_SUCCESS, statement) => do
      let (res, out, table1) ← executeStatement fl statement table
      match res with
      | ExecuteResult.EXECUTE_SUCCESS => pure (Step.next table1 out)
      | ExecuteResult.EXECUTE_TABLE_FULL => pure (Step.next table1 (out ++ [Output.tableFull]))
    | (PrepareResult.PREPARE_STRING_TOO_LONG, _) =>
      pure (Step.next table [Output.stringTooLong])
    | (PrepareResult.PREPARE_SYNTAX_ERROR, _) =>
      pure (Step.next table [Output.syntaxError])
    | (PrepareResult.PREPARE_UNRECOGNIZED_STATEMENT, _) =>
      pure (Step.next table [Output.unrecognizedKeyword line])

/-- The loop of `main` run over the given input lines, each with its `Env`:
the lines printed, and the table when the input ran out before `.exit`. -/
def mainLoop (fl : FloatOps) (table : Table) :
    List (Env × List Nat) → Except Fault (List Output × Option Table)
  | [] => pure ([], some table)
  | (env, line) :: rest => do
    let step ← mainStep fl env table line
    match step with
    | Step.exited _ => pure ([], none)
    | Step.next table1 out =>
      let (outs, final) ← mainLoop fl table1 rest
      pure (out ++ outs, final)

/-- Runs `n` calls of `executeInsert`, one per row, in order: the results and the
table afterwards. -/
def insertRows (table : Table) : List Row → Except Fault (List ExecuteResult × Table)
  | [] => pure ([], table)
  | row :: rows => do
    let (res, table1) ← executeInsert
      { type := StatementType.STATEMENT_INSERT, rowToInsert := row, selectedTask := [] } table
    let (ress, table2) ← insertRows table1 rows
    pure (res :: ress, table2)

/-- The row a stored copy of `r` decodes to: the task text padded with zero
bytes, the other two fields byte for byte. -/
def Row.stored (r : Row) : Row :=
  { task := strncpy r.task TASK_SIZE
    hours := memcpy r.hours HOURS_SIZE
    date := memcpy r.date DATE_SIZE }

/-- The table holds exactly `rows`, in order: `numRows` is their number and
row `i` decodes, from its slot in a populated page, to the stored form of
`rows[i]`. -/
def Stored (t : Table) (rows : List Row) : Prop :=
  t.numRows = rows.length ∧ rows.length ≤ TABLE_MAX_ROWS ∧
    ∀ i r, rows[i]? = some r →
      ∃ page, t.pager.pages (i / ROWS_PER_PAGE) = some page ∧
        deserializeRow page (i % ROWS_PER_PAGE * ROW_SIZE) = r.stored

instance (r : Row) : Decidable r.Valid := by
  unfold Row.Valid
  infer_instance

/-! ## Reading a scan -/

/-- The value of `float total = 0; total += row.hours;` over `rows`, in order. -/
def sumHours (fl : FloatOps) (rows : List Row) : List Nat :=
  rows.foldl (fun total row => fl.add total row.hours) (fl.ofInt 0)

/-- The rows of `rows` whose task text is exactly `t`. -/
def withTask (t : List Nat) (rows : List Row) : List Row :=
  rows.filter (fun r => decide (cstr r.task = t))

/-! ## Sample data -/

/-- A character array of `n` bytes holding the text `s` followed by zero bytes. -/
def padTo (n : Nat) (s : List Nat) : List Nat :=
  s ++ List.replicate (n - s.length) 0

/-- The task `writeup`, two hours (`2.0f`, little-endian), a date beginning `Fri`. -/
def writeupRow : Row :=
  { task := padTo 33 [119, 114, 105, 116, 101, 117, 112]
    hours := [0, 0, 0, 64]
    date := padTo 33 [70, 114, 105] }

/-- The task `review`, three hours (`3.0f`, little-endian), a date beginning `Sat`. -/
def reviewRow : Row :=
  { task := padTo 33 [114, 101, 118, 105, 101, 119]
    hours := [0, 0, 64, 64]
    date := padTo 33 [83, 97, 116] }

/-- A stand-in float unit for evaluations that inspect control flow only:
every operation yields the four zero bytes. -/
def nullFloat : FloatOps :=
  { ofInt := fun _ => [0, 0, 0, 0]
    add := fun _ _ => [0, 0, 0, 0]
    div := fun _ _ => [0, 0, 0, 0]
    ofInt_length := fun _ => rfl }

/-- Uninitialised memory that happens to hold zero bytes. -/
def zeroHeap : Nat → Mem := fun _ _ => 0

/-- A statement variable holding an insert of `writeupRow`. -/
def writeupInsert : Statement :=
  { type := StatementType.STATEMENT_INSERT, rowToInsert := writeupRow, selectedTask := [] }

/-- The line `insert aaaaaaaaaaaaaaaaaaaaaaaaaaaaaaaaa`: the keyword and a task
of 33 bytes, no hours. -/
def longTaskNoHours : List Nat :=
  [105, 110, 115, 101, 114, 116, 32] ++ List.replicate 33 97

/-- The line `insert aaaaaaaaaaaaaaaaaaaaaaaaaaaaaaaaa 5`: the keyword, a task of
33 bytes and an hours token. -/
def longTaskWithHours : List Nat :=
  [105, 110, 115, 101, 114, 116, 32] ++ List.replicate 33 97 ++ [32, 53]

/-- The line `insert writeup`: the keyword and a task, no hours. -/
def insertNoHours : List Nat :=
  [105, 110, 115, 101, 114, 116, 32, 119, 114, 105, 116, 101, 117, 112]

/-- A turn of the command loop whose statement variable holds `writeupInsert`
and whose clock text is empty. -/
def sampleEnv : Env :=
  { now := [0], stack := writeupInsert }

/-- The line `average *`. -/
def averageStar : List Nat := [97, 118, 101, 114, 97, 103, 101, 32, 42]

/-- The line `average writeup`. -/
def averageWriteup : List Nat :=
  [97, 118, 101, 114, 97, 103, 101, 32, 119, 114, 105, 116, 101, 117, 112]

/-- A table of one row, `writeupRow`, serialized at the start of page 0. -/
def oneRowTable : Table :=
  { pager := setPage (pagerOpen [] zeroHeap) 0 (some (serializeRow writeupRow (zeroHeap 0) 0))
    numRows := 1 }

/-- The text `writeup`. -/
def writeupText : List Nat := [119, 114, 105, 116, 101, 117, 112]

/-- The text `review`. -/
def reviewText : List Nat := [114, 101, 118, 105, 101, 119]

/-- The line `insert writeup 2.5`. -/
def insertWriteup25 : List Nat :=
  [105, 110, 115, 101, 114, 116, 32, 119, 114, 105, 116, 101, 117, 112, 32, 50, 46, 53]

/-- The line `insert writeup 1.5`. -/
def insertWriteup15 : List Nat :=
  [105, 110, 115, 101, 114, 116, 32, 119, 114, 105, 116, 101, 117, 112, 32, 49, 46, 53]

/-- The line `insert review 3.0`. -/
def insertReview30 : List Nat :=
  [105, 110, 115, 101, 114, 116, 32, 114, 101, 118, 105, 101, 119, 32, 51, 46, 48]

/-- The line `total writeup`. -/
def totalWriteup : List Nat :=
  [116, 111, 116, 97, 108, 32, 119, 114, 105, 116, 101, 117, 112]

/-- The line `average`. -/
def averageAll : List Nat := [97, 118, 101, 114, 97, 103, 101]

/-- The slot of row 59 in a table whose page 1 is the untouched heap block. -/
def slot59 : RowSlot := { pageNum := 1, page := zeroHeap 1, byteOffset := 70 }

/-- The slot of row 60 in a table whose page 1 is the untouched heap block. -/
def slot60 : RowSlot := { pageNum := 1, page := zeroHeap 1, byteOffset := 140 }

/-- The fresh empty table after page 1 has been fetched once. -/
def pageOneTable : Table :=
  { pager := setPage (pagerOpen [] zeroHeap) 1 (some (zeroHeap 1)), numRows := 0 }

/-- The line `total writeupx`, naming a task that has `writeup` as a proper prefix. -/
def totalWriteupx : List Nat :=
  [116, 111, 116, 97, 108, 32, 119, 114, 105, 116, 101, 117, 112, 120]

/-- A statement variable holding a total over `writeup`. -/
def writeupTotal : Statement :=
  { type := StatementType.STATEMENT_TOTAL, rowToInsert := writeupRow,
    selectedTask := padTo 33 [119, 114, 105, 116, 101, 117, 112] }

/-- A row whose task array holds 33 non-zero bytes: its text is not terminated
inside the field. -/
def unterminatedRow : Row :=
  { task := List.replicate 33 97
    hours := [0, 0, 0, 64]
    date := padTo 33 [70, 114, 105] }

/-- A pager opened on an empty file whose slot 3 holds the heap block, with one
byte changed in memory since it was fetched. -/
def dirtyPager : Pager :=
  setPage (pagerOpen [] zeroHeap) 3 (some (memWrite (zeroHeap 3) 0 [7]))

/-- The number of pages a file of `fileLength` bytes spans: `fileLength / PAGE_SIZE`
rounded up. -/
def fileSpan (fileLength : Nat) : Nat :=
  (fileLength + PAGE_SIZE - 1) / PAGE_SIZE

/-- The row `writeupRow` with a non-zero byte left after the terminator of its
date: same task text, hours and date text. -/
def dirtyDateRow : Row :=
  { task := padTo 33 [119, 114, 105, 116, 101, 117, 112]
    hours := [0, 0, 0, 64]
    date := [70, 114, 105, 0, 99] ++ List.replicate 28 0 }

/-- The string `asctime` returns for 15:40:00 on Friday 30 October 2026, with
its newline and terminator. -/
def asctimeSample : List Nat :=
  [70, 114, 105, 32, 79, 99, 116, 32, 51, 48, 32, 49, 53, 58, 52, 48, 58, 48, 48, 32,
    50, 48, 50, 54, 10, 0]

/-- A turn of the command loop whose statement variable holds zero bytes. -/
def cleanEnv : Env :=
  { now := asctimeSample
    stack := { type := StatementType.STATEMENT_INSERT
               rowToInsert := { task := List.replicate 33 0, hours := [0, 0, 0, 0],
                                date := List.replicate 33 0 }
               selectedTask := List.replicate 33 0 } }

/-- A turn of the command loop at the same time whose statement variable holds
the byte 99 throughout, as left by earlier use of the stack. -/
def usedEnv : Env :=
  { now := asctimeSample
    stack := { type := StatementType.STATEMENT_INSERT
               rowToInsert := { task := List.replicate 33 99, hours := [99, 99, 99, 99],
                                date := List.replicate 33 99 }
               selectedTask := List.replicate 33 99 } }

/-- The line `insert writeup 2`. -/
def insertWriteup2 : List Nat :=
  [105, 110, 115, 101, 114, 116, 32, 119, 114, 105, 116, 101, 117, 112, 32, 50]

/-- The line `total aaaaaaaaaaaaaaaaaaaaaaaaaaaaaaaaa`: a task name of 33 bytes. -/
def totalLongTask : List Nat :=
  [116, 111, 116, 97, 108, 32] ++ List.replicate 33 97

/-- The line `average aaaaaaaaaaaaaaaaaaaaaaaaaaaaaaaaa`: a task name of 33 bytes. -/
def averageLongTask : List Nat :=
  [97, 118, 101, 114, 97, 103, 101, 32] ++ List.replicate 33 97

/-- The row `prepareStatement` builds for `insert writeup 2` over the zeroed
statement variable. -/
def cleanPrepared : Row :=
  (prepareStatement nullFloat cleanEnv.now insertWriteup2 cleanEnv.stack).2.rowToInsert

/-- The row `prepareStatement` builds for `insert writeup 2`, at the same time,
over the used statement variable. -/
def usedPrepared : Row :=
  (prepareStatement nullFloat usedEnv.now insertWriteup2 usedEnv.stack).2.rowToInsert

/-! ## What a table stores -/

/-- Specification side: the row image at byte `off` of a page: 33 task bytes,
then 4 hours bytes, then 33 date bytes. -/
def rowOfPage (page : Mem) (off : Nat) : Row :=
  { task := (List.range 33).map (fun k => page (off + k))
    hours := (List.range 4).map (fun k => page (off + 33 + k))
    date := (List.range 33).map (fun k => page (off + 37 + k)) }

/-- Specification side: the bytes slot `q` of the pager stands for.  A
populated slot stands for its page in memory.  An empty slot stands for page
`q` of the file: inside the span of the file as probed at open, the bytes the
file has from `q * PAGE_SIZE` on (at most a page), laid over uninitialised
memory; beyond the span, uninitialised memory. -/
def slotBytes (pager : Pager) (q : Nat) : Mem :=
  match pager.pages q with
  | some page => page
  | none =>
    if q ≤ fileSpan pager.fileLength then
      fun a => ((pager.file.drop (q * PAGE_SIZE)).take PAGE_SIZE).getD a (pager.heap q a)
    else pager.heap q

/-- Specification side: the row the table stores at index `i`: the row image at
byte `(i % ROWS_PER_PAGE) * ROW_SIZE` of page `i / ROWS_PER_PAGE`. -/
def storedRow (t : Table) (i : Nat) : Row :=
  rowOfPage (slotBytes t.pager (i / ROWS_PER_PAGE)) (i % ROWS_PER_PAGE * ROW_SIZE)

/-- Specification side: the rows the table stores, indices `0 .. numRows-1`. -/
def storedRows (t : Table) : List Row :=
  (List.range t.numRows).map (storedRow t)

/-- The four bytes of a whole number below `2 ^ 32`, least significant first. -/
def leWord (n : Nat) : List Nat :=
  [n % 256, n / 256 % 256, n / 65536 % 256, n / 16777216 % 256]

/-- The whole number four bytes stand for, least significant first. -/
def wordOf (b : List Nat) : Nat :=
  b.getD 0 0 + 256 * b.getD 1 0 + 65536 * b.getD 2 0 + 16777216 * b.getD 3 0

/-- A sample float unit for witnesses, in which sums and counts stay visible: a
float is a whole number below `2 ^ 32` in four bytes, and conversion, `+` and
`/` are those of whole numbers (the quotient rounded down).  It stands in for
the machine's arithmetic, which the theorems leave open. -/
def tallyFloat : FloatOps :=
  { ofInt := fun n => leWord (n % 4294967296).toNat
    add := fun a b => leWord ((wordOf a + wordOf b) % 4294967296)
    div := fun a b => leWord (wordOf a / wordOf b)
    ofInt_length := fun _ => rfl }

/-- A database file of three rows: `writeup` with 4 hours, `writeup` with 2
hours and `review` with 9 hours, the hours as `tallyFloat` carries them. -/
def tallyFile : List Nat :=
  padTo 33 [119, 114, 105, 116, 101, 117, 112] ++ [4, 0, 0, 0] ++ padTo 33 [70, 114, 105] ++
  (padTo 33 [119, 114, 105, 116, 101, 117, 112] ++ [2, 0, 0, 0] ++ padTo 33 [70, 114, 105]) ++
  (padTo 33 [114, 101, 118, 105, 101, 119] ++ [9, 0, 0, 0] ++ padTo 33 [83, 97, 116])

/-- The table `openDB` gives on `tallyFile`; no page is in memory yet. -/
def tallyTable : Table := openDB tallyFile zeroHeap

/-- A database file of four rows: `writeup` with 4 hours, `writeupx` with 16
hours, `writeup` with 2 hours and `wri` with 32 hours, the hours as
`tallyFloat` carries them. -/
def prefixFile : List Nat :=
  padTo 33 [119, 114, 105, 116, 101, 117, 112] ++ [4, 0, 0, 0] ++ padTo 33 [70, 114, 105] ++
  (padTo 33 [119, 114, 105, 116, 101, 117, 112, 120] ++ [16, 0, 0, 0] ++
    padTo 33 [70, 114, 105]) ++
  (padTo 33 [119, 114, 105, 116, 101, 117, 112] ++ [2, 0, 0, 0] ++ padTo 33 [83, 97, 116]) ++
  (padTo 33 [119, 114, 105] ++ [32, 0, 0, 0] ++ padTo 33 [83, 97, 116])

/-- The table `openDB` gives on `prefixFile`; no page is in memory yet. -/
def prefixTable : Table := openDB prefixFile zeroHeap

/-- What a run of `executeTotal` returned and printed, without the table. -/
def printedBy (r : Except Fault (ExecuteResult × List Output × Table)) :
    Except Fault (ExecuteResult × List Output) :=
  match r with
  | .ok (res, out, _) => .ok (res, out)
  | .error e => .error e

/-- The line `total review`. -/
def totalReview : List Nat :=
  [116, 111, 116, 97, 108, 32, 114, 101, 118, 105, 101, 119]

/-! ## Basic facts -/

theorem memRead_length (m : Mem) (off n : Nat) : (memRead m off n).length = n := by
  simp [memRead]

theorem memcpy_length (src : List Nat) (n : Nat) : (memcpy src n).length = n := by
  simp [memcpy]

theorem memcpy_self (src : List Nat) : memcpy src src.length = src := by
  apply List.ext_getElem
  · simp [memcpy]
  · intro i h1 h2
    simp [memcpy, List.getD_eq_getElem?_getD, List.getElem?_eq_getElem h2]

theorem strncpy_length (src : List Nat) (n : Nat) : (strncpy src n).length = n := by
  simp only [strncpy, List.length_append, List.length_replicate, List.length_take]
  omega

theorem memRead_memWrite_same (m : Mem) (off : Nat) (data : List Nat) :
    memRead (memWrite m off data) off data.length = data := by
  apply List.ext_getElem
  · simp [memRead]
  · intro i h1 h2
    simp [memRead, memWrite, h2, List.getD_eq_getElem?_getD, List.getElem?_eq_getElem h2]

theorem memRead_memWrite_disjoint (m : Mem) (off : Nat) (data : List Nat) (off2 n : Nat)
    (h : off2 + n ≤ off ∨ off + data.length ≤ off2) :
    memRead (memWrite m off data) off2 n = memRead m off2 n := by
  apply List.ext_getElem
  · simp [memRead]
  · intro i h1 h2
    have hi : i < n := by simpa [memRead] using h1
    have : ¬ (off ≤ off2 + i ∧ off2 + i < off + data.length) := by omega
    simp [memRead, memWrite, this]

theorem cstr_no_zero (buf : List Nat) : 0 ∉ cstr buf := by
  intro h
  have := List.mem_takeWhile_imp h
  simp at this

theorem cstr_length_le (buf : List Nat) : (cstr buf).length ≤ buf.length := by
  unfold cstr
  exact (List.takeWhile_sublist _).length_le

theorem cstr_cons_ne (a : Nat) (s : List Nat) (ha : a ≠ 0) : cstr (a :: s) = a :: cstr s := by
  simp [cstr, List.takeWhile_cons, ha]

theorem cstr_cons_zero (s : List Nat) : cstr (0 :: s) = [] := by
  simp [cstr, List.takeWhile_cons]

theorem cstr_append_zero (s rest : List Nat) (h : 0 ∉ s) : cstr (s ++ 0 :: rest) = s := by
  induction s with
  | nil => simp [cstr_cons_zero]
  | cons a s ih =>
    have ha : a ≠ 0 := fun e => h (by simp [e])
    have hs : 0 ∉ s := fun e => h (by simp [e])
    rw [List.cons_append, cstr_cons_ne _ _ ha, ih hs]

theorem cstr_of_no_zero (s : List Nat) (h : 0 ∉ s) : cstr s = s := by
  induction s with
  | nil => simp [cstr]
  | cons a s ih =>
    have ha : a ≠ 0 := fun e => h (by simp [e])
    have hs : 0 ∉ s := fun e => h (by simp [e])
    rw [cstr_cons_ne _ _ ha, ih hs]

theorem cstr_strncpy (src : List Nat) (n : Nat) (h : (cstr src).length ≤ n) :
    cstr (strncpy src n) = cstr src := by
  unfold strncpy
  rw [List.take_of_length_le h]
  rcases Nat.eq_zero_or_pos (n - (cstr src).length) with h0 | hpos
  · rw [h0]
    simpa using cstr_of_no_zero _ (cstr_no_zero src)
  · obtain ⟨k, hk⟩ : ∃ k, n - (cstr src).length = k + 1 := ⟨_, (Nat.succ_pred_eq_of_pos hpos).symm⟩
    rw [hk, List.replicate_succ]
    exact cstr_append_zero _ _ (cstr_no_zero src)

theorem deserialize_serialize (row : Row) (m : Mem) (dest : Nat) :
    deserializeRow (serializeRow row m dest) dest = row.stored := by
  have e1 : (strncpy row.task TASK_SIZE).length = 33 := strncpy_length _ _
  have e2 : (memcpy row.hours HOURS_SIZE).length = 4 := memcpy_length _ _
  have e3 : (memcpy row.date DATE_SIZE).length = 33 := memcpy_length _ _
  have t : memRead (serializeRow row m dest) (dest + TASK_OFFSET) TASK_SIZE
      = strncpy row.task TASK_SIZE := by
    unfold serializeRow
    rw [memRead_memWrite_disjoint _ _ _ _ _ (by simp [TASK_OFFSET, DATE_OFFSET, HOURS_OFFSET,
          TASK_SIZE, HOURS_SIZE, COLUMN_TASK_SIZE]),
        memRead_memWrite_disjoint _ _ _ _ _ (by simp [TASK_OFFSET, HOURS_OFFSET,
          TASK_SIZE, COLUMN_TASK_SIZE])]
    have := memRead_memWrite_same m (dest + TASK_OFFSET) (strncpy row.task TASK_SIZE)
    rw [e1] at this
    exact this
  have hh : memRead (serializeRow row m dest) (dest + HOURS_OFFSET) HOURS_SIZE
      = memcpy row.hours HOURS_SIZE := by
    unfold serializeRow
    rw [memRead_memWrite_disjoint _ _ _ _ _ (by simp [TASK_OFFSET, DATE_OFFSET, HOURS_OFFSET,
          TASK_SIZE, HOURS_SIZE, COLUMN_TASK_SIZE])]
    have := memRead_memWrite_same (memWrite m (dest + TASK_OFFSET) (strncpy row.task TASK_SIZE))
      (dest + HOURS_OFFSET) (memcpy row.hours HOURS_SIZE)
    rw [e2] at this
    exact this
  have d : memRead (serializeRow row m dest) (dest + DATE_OFFSET) DATE_SIZE
      = memcpy row.date DATE_SIZE := by
    unfold serializeRow
    have := memRead_memWrite_same
      (memWrite (memWrite m (dest + TASK_OFFSET) (strncpy row.task TASK_SIZE))
        (dest + HOURS_OFFSET) (memcpy row.hours HOURS_SIZE))
      (dest + DATE_OFFSET) (memcpy row.date DATE_SIZE)
    rw [e3] at this
    exact this
  simp only [deserializeRow, Row.stored, t, hh, d]

theorem stored_text (row : Row) (h : row.Valid) :
    cstr row.stored.task = cstr row.task ∧ row.stored.hours = row.hours ∧
      row.stored.date = row.date := by
  obtain ⟨h1, _, h3, h4, _⟩ := h
  refine ⟨?_, ?_, ?_⟩
  · apply cstr_strncpy
    have := cstr_length_le row.task
    omega
  · have := memcpy_self row.hours
    rw [h3] at this
    exact this
  · have := memcpy_self row.date
    rw [h4] at this
    exact this

/-- C2. For every valid row (both texts terminated inside their 33-byte arrays,
any four hours bytes), every destination memory and every offset into it,
`deserializeRow` applied where `serializeRow` wrote gives back the same task
text, the same hours bytes and the same date text. -/
theorem C2_roundtrip (row : Row) (m : Mem) (dest : Nat) (h : row.Valid) :
    cstr (deserializeRow (serializeRow row m dest) dest).task = cstr row.task ∧
    (deserializeRow (serializeRow row m dest) dest).hours = row.hours ∧
    cstr (deserializeRow (serializeRow row m dest) dest).date = cstr row.date := by
  rw [deserialize_serialize]
  obtain ⟨a, b, c⟩ := stored_text row h
  exact ⟨a, b, by rw [c]⟩

theorem ROW_SIZE_eq : ROW_SIZE = 70 := rfl
theorem ROWS_PER_PAGE_eq : ROWS_PER_PAGE = 58 := by decide
theorem TABLE_MAX_ROWS_eq : TABLE_MAX_ROWS = 5800 := by decide
theorem TABLE_MAX_PAGES_eq : TABLE_MAX_PAGES = 100 := rfl
theorem PAGE_SIZE_eq : PAGE_SIZE = 4096 := rfl

theorem pageAt_lt (pager : Pager) (i : Nat) (h : i < TABLE_MAX_PAGES) :
    pageAt pager i = .ok (pager.pages i) := by
  simp [pageAt, h, pure, Except.pure]

theorem getPage_populated (pager : Pager) (n : Nat) (page : Mem) (hn : n < TABLE_MAX_PAGES)
    (h : pager.pages n = some page) : getPage pager n = .ok (page, pager) := by
  have h1 : ¬ n > TABLE_MAX_PAGES := by omega
  simp [getPage, h1, pageAt_lt pager n hn, h, bind, Except.bind, pure, Except.pure]

theorem getPage_ok (pager : Pager) (n : Nat) (hn : n < TABLE_MAX_PAGES) :
    ∃ page pager', getPage pager n = .ok (page, pager') ∧ pager'.pages n = some page ∧
      (∀ j, j ≠ n → pager'.pages j = pager.pages j) ∧ pager'.file = pager.file ∧
      pager'.fileLength = pager.fileLength ∧ pager'.heap = pager.heap := by
  have h1 : ¬ n > TABLE_MAX_PAGES := by omega
  cases h : pager.pages n with
  | some page =>
    exact ⟨page, pager, getPage_populated pager n page hn h, h, fun _ _ => rfl, rfl, rfl, rfl⟩
  | none =>
    simp only [getPage, h1, pageAt_lt pager n hn, h, bind, Except.bind, pure, Except.pure, if_false]
    split_ifs <;>
    · refine ⟨_, _, rfl, ?_, ?_, rfl, rfl, rfl⟩
      · simp [setPage]
      · intro j hj
        simp [setPage, Function.update, hj]


theorem getRowSlot_eq (t : Table) (i : Nat) (slot : RowSlot) (t' : Table)
    (h : getRowSlot t i = .ok (slot, t')) :
    slot.pageNum = i / ROWS_PER_PAGE ∧ slot.byteOffset = i % ROWS_PER_PAGE * ROW_SIZE ∧
      getPage t.pager (i / ROWS_PER_PAGE) = .ok (slot.page, t'.pager) ∧
      t'.numRows = t.numRows := by
  unfold getRowSlot at h
  cases hg : getPage t.pager (i / ROWS_PER_PAGE) with
  | error e => simp [hg, bind, Except.bind] at h
  | ok v =>
    obtain ⟨page, pager⟩ := v
    simp only [hg, bind, Except.bind, pure, Except.pure, Except.ok.injEq, Prod.mk.injEq] at h
    obtain ⟨h1, h2⟩ := h
    subst h1 h2
    exact ⟨rfl, rfl, rfl, rfl⟩

theorem getRowSlot_of_getPage (t : Table) (i : Nat) (page : Mem) (pager' : Pager)
    (hg : getPage t.pager (i / ROWS_PER_PAGE) = .ok (page, pager')) :
    getRowSlot t i = .ok
      ({ pageNum := i / ROWS_PER_PAGE, page := page, byteOffset := i % ROWS_PER_PAGE * ROW_SIZE },
        { t with pager := pager' }) := by
  simp only [getRowSlot, hg, bind, Except.bind, pure, Except.pure]

theorem getRowSlot_ok (t : Table) (i : Nat) (hi : i / ROWS_PER_PAGE < TABLE_MAX_PAGES) :
    ∃ slot t', getRowSlot t i = .ok (slot, t') := by
  obtain ⟨page, pager', hg, _⟩ := getPage_ok t.pager (i / ROWS_PER_PAGE) hi
  exact ⟨_, _, getRowSlot_of_getPage t i page pager' hg⟩

theorem page_lt_of_row_lt (i : Nat) (h : i < TABLE_MAX_ROWS) :
    i / ROWS_PER_PAGE < TABLE_MAX_PAGES := by
  rw [TABLE_MAX_ROWS_eq] at h
  rw [ROWS_PER_PAGE_eq, TABLE_MAX_PAGES_eq]
  omega

/-- C4. Row addressing.  Whatever slot `getRowSlot` returns for row index `i`
has `pageNum = i / ROWS_PER_PAGE` and `byteOffset = (i % ROWS_PER_PAGE) * ROW_SIZE`,
and it does return one for every index below `TABLE_MAX_ROWS`.  For two indices
`i`, `j`: equal page and offset force `i = j`; distinct indices on the same page
have disjoint byte ranges of `ROW_SIZE` bytes; and `i ≤ j` gives
`pageNum i ≤ pageNum j`. -/
theorem C4_row_addressing (ti tj : Table) (i j : Nat) :
    (i < TABLE_MAX_ROWS → ∃ slot t', getRowSlot ti i = .ok (slot, t')) ∧
    (∀ si ti', getRowSlot ti i = .ok (si, ti') →
      si.pageNum = i / ROWS_PER_PAGE ∧ si.byteOffset = i % ROWS_PER_PAGE * ROW_SIZE) ∧
    (∀ si ti' sj tj', getRowSlot ti i = .ok (si, ti') → getRowSlot tj j = .ok (sj, tj') →
      (si.pageNum = sj.pageNum → si.byteOffset = sj.byteOffset → i = j) ∧
      (i ≠ j → si.pageNum = sj.pageNum →
        si.byteOffset + ROW_SIZE ≤ sj.byteOffset ∨ sj.byteOffset + ROW_SIZE ≤ si.byteOffset) ∧
      (i ≤ j → si.pageNum ≤ sj.pageNum)) := by
  refine ⟨fun h => getRowSlot_ok ti i (page_lt_of_row_lt i h), ?_, ?_⟩
  · intro si ti' h
    obtain ⟨a, b, _⟩ := getRowSlot_eq ti i si ti' h
    exact ⟨a, b⟩
  · intro si ti' sj tj' hi hj
    obtain ⟨a1, b1, _⟩ := getRowSlot_eq ti i si ti' hi
    obtain ⟨a2, b2, _⟩ := getRowSlot_eq tj j sj tj' hj
    rw [a1, a2, b1, b2, ROWS_PER_PAGE_eq, ROW_SIZE_eq]
    refine ⟨?_, ?_, ?_⟩
    · intro h1 h2
      omega
    · intro h1 h2
      omega
    · intro h1
      exact Nat.div_le_div_right h1

theorem memRead_serialize_disjoint (row : Row) (m : Mem) (dest off n : Nat)
    (h : off + n ≤ dest ∨ dest + ROW_SIZE ≤ off) :
    memRead (serializeRow row m dest) off n = memRead m off n := by
  have e1 : (strncpy row.task TASK_SIZE).length = 33 := strncpy_length _ _
  have e2 : (memcpy row.hours HOURS_SIZE).length = 4 := memcpy_length _ _
  have e3 : (memcpy row.date DATE_SIZE).length = 33 := memcpy_length _ _
  rw [ROW_SIZE_eq] at h
  unfold serializeRow
  rw [memRead_memWrite_disjoint _ _ _ _ _ (by
        rw [e3]; simp only [DATE_OFFSET, HOURS_OFFSET, TASK_OFFSET, TASK_SIZE, HOURS_SIZE,
          COLUMN_TASK_SIZE]; omega),
      memRead_memWrite_disjoint _ _ _ _ _ (by
        rw [e2]; simp only [HOURS_OFFSET, TASK_OFFSET, TASK_SIZE, COLUMN_TASK_SIZE]; omega),
      memRead_memWrite_disjoint _ _ _ _ _ (by
        rw [e1]; simp only [TASK_OFFSET]; omega)]

theorem deserialize_serialize_disjoint (row : Row) (m : Mem) (dest src : Nat)
    (h : src + ROW_SIZE ≤ dest ∨ dest + ROW_SIZE ≤ src) :
    deserializeRow (serializeRow row m dest) src = deserializeRow m src := by
  rw [ROW_SIZE_eq] at h
  unfold deserializeRow
  rw [memRead_serialize_disjoint _ _ _ _ _ (by
        rw [ROW_SIZE_eq]; simp only [TASK_OFFSET, TASK_SIZE, COLUMN_TASK_SIZE]; omega),
      memRead_serialize_disjoint _ _ _ _ _ (by
        rw [ROW_SIZE_eq]; simp only [HOURS_OFFSET, TASK_OFFSET, TASK_SIZE, HOURS_SIZE,
          COLUMN_TASK_SIZE]; omega),
      memRead_serialize_disjoint _ _ _ _ _ (by
        rw [ROW_SIZE_eq]; simp only [DATE_OFFSET, HOURS_OFFSET, TASK_OFFSET, TASK_SIZE,
          HOURS_SIZE, DATE_SIZE, COLUMN_TASK_SIZE, COLUMN_DATE_SIZE]; omega)]

theorem executeInsert_full (stmt : Statement) (t : Table) (h : TABLE_MAX_ROWS ≤ t.numRows) :
    executeInsert stmt t = .ok (ExecuteResult.EXECUTE_TABLE_FULL, t) := by
  simp [executeInsert, h, pure, Except.pure]

theorem executeInsert_ok (stmt : Statement) (t : Table) (h : t.numRows < TABLE_MAX_ROWS) :
    ∃ page pager', getPage t.pager (t.numRows / ROWS_PER_PAGE) = .ok (page, pager') ∧
      pager'.pages (t.numRows / ROWS_PER_PAGE) = some page ∧
      (∀ j, j ≠ t.numRows / ROWS_PER_PAGE → pager'.pages j = t.pager.pages j) ∧
      pager'.file = t.pager.file ∧
      executeInsert stmt t = .ok (ExecuteResult.EXECUTE_SUCCESS,
        { pager := setPage pager' (t.numRows / ROWS_PER_PAGE)
            (some (serializeRow stmt.rowToInsert page (t.numRows % ROWS_PER_PAGE * ROW_SIZE)))
          numRows := t.numRows + 1 }) := by
  obtain ⟨page, pager', hg, hp, ho, hf, _⟩ :=
    getPage_ok t.pager (t.numRows / ROWS_PER_PAGE) (page_lt_of_row_lt _ h)
  refine ⟨page, pager', hg, hp, ho, hf, ?_⟩
  have h' : ¬ t.numRows ≥ TABLE_MAX_ROWS := by omega
  simp only [executeInsert, h', if_false, getRowSlot_of_getPage t _ page pager' hg, bind,
    Except.bind, pure, Except.pure]

theorem stored_open_empty (heap : Nat → Mem) : Stored (openDB [] heap) [] := by
  refine ⟨by simp [openDB, pagerOpen], by simp, ?_⟩
  intro i r h
  simp at h

theorem stored_insert (stmt : Statement) (t : Table) (rows : List Row) (hs : Stored t rows)
    (hlt : rows.length < TABLE_MAX_ROWS) :
    ∃ t', executeInsert stmt t = .ok (ExecuteResult.EXECUTE_SUCCESS, t') ∧
      Stored t' (rows ++ [stmt.rowToInsert]) ∧ t'.pager.file = t.pager.file := by
  obtain ⟨hn, _, hrows⟩ := hs
  have hlt' : t.numRows < TABLE_MAX_ROWS := by omega
  obtain ⟨page, pager', hg, hp, ho, hf, he⟩ := executeInsert_ok stmt t hlt'
  refine ⟨_, he, ⟨?_, ?_, ?_⟩, ?_⟩
  · simp [hn]
  · simp only [List.length_append, List.length_singleton]
    omega
  · intro i r hir
    by_cases hi : i < rows.length
    · rw [List.getElem?_append_left hi] at hir
      obtain ⟨pg, hpg, hd⟩ := hrows i r hir
      by_cases hpage : i / ROWS_PER_PAGE = t.numRows / ROWS_PER_PAGE
      · have hsame : getPage t.pager (t.numRows / ROWS_PER_PAGE) = .ok (pg, t.pager) :=
          getPage_populated _ _ _ (page_lt_of_row_lt _ hlt') (hpage ▸ hpg)
        rw [hsame] at hg
        simp only [Except.ok.injEq, Prod.mk.injEq] at hg
        obtain ⟨hg1, _⟩ := hg
        subst hg1
        refine ⟨serializeRow stmt.rowToInsert pg (t.numRows % ROWS_PER_PAGE * ROW_SIZE),
          by simp [setPage, hpage], ?_⟩
        rw [deserialize_serialize_disjoint, hd]
        rw [ROWS_PER_PAGE_eq] at hpage ⊢
        rw [ROW_SIZE_eq]
        omega
      · refine ⟨pg, ?_, hd⟩
        simp only [setPage, Function.update, hpage, dite_false, eq_rec_constant]
        rw [ho _ hpage, hpg]
    · have hi' : i = rows.length := by
        have := (List.getElem?_eq_some.mp hir).1
        simp only [List.length_append, List.length_singleton] at this
        omega
      subst hi'
      simp only [List.getElem?_concat_length, Option.some.injEq] at hir
      subst hir
      refine ⟨serializeRow stmt.rowToInsert page (t.numRows % ROWS_PER_PAGE * ROW_SIZE),
        by simp [setPage, hn], ?_⟩
      rw [hn, deserialize_serialize]
  · simpa [setPage] using hf

theorem insertRows_stored (rows : List Row) :
    ∀ (t : Table) (pre : List Row), Stored t pre →
      pre.length + rows.length ≤ TABLE_MAX_ROWS →
      ∃ t', insertRows t rows =
          .ok (List.replicate rows.length ExecuteResult.EXECUTE_SUCCESS, t') ∧
        Stored t' (pre ++ rows) ∧ t'.pager.file = t.pager.file := by
  induction rows with
  | nil =>
    intro t pre hs _
    exact ⟨t, rfl, by simpa using hs, rfl⟩
  | cons r rows ih =>
    intro t pre hs hlen
    simp only [List.length_cons] at hlen
    obtain ⟨t1, he, hs1, hf1⟩ := stored_insert
      { type := StatementType.STATEMENT_INSERT, rowToInsert := r, selectedTask := [] }
      t pre hs (by omega)
    obtain ⟨t2, hi2, hs2, hf2⟩ := ih t1 (pre ++ [r]) hs1 (by
      simp only [List.length_append, List.length_singleton]; omega)
    refine ⟨t2, ?_, by simpa using hs2, by rw [hf2, hf1]⟩
    simp only [insertRows, he, hi2, bind, Except.bind, pure, Except.pure, List.length_cons,
      List.replicate_succ]

theorem fetchRow_stored (t : Table) (rows : List Row) (i : Nat) (r : Row)
    (hs : Stored t rows) (hi : rows[i]? = some r) : fetchRow t i = .ok (r.stored, t) := by
  obtain ⟨_, hmax, hrows⟩ := hs
  obtain ⟨page, hp, hd⟩ := hrows i r hi
  have hlt : i < TABLE_MAX_ROWS := by
    have := (List.getElem?_eq_some.mp hi).1
    omega
  have hg := getPage_populated t.pager _ page (page_lt_of_row_lt i hlt) hp
  simp only [fetchRow, getRowSlot_of_getPage t i page t.pager hg, bind, Except.bind, pure,
    Except.pure, hd]

theorem forLoop_succ {σ : Type} (n : Nat) (body : Nat → σ → Except Fault σ) (s : σ) :
    forLoop (n + 1) body s = forLoop n body s >>= body n := rfl

theorem selectLoop_stored (t : Table) (rows : List Row) (hs : Stored t rows) :
    ∀ k, k ≤ rows.length →
      forLoop k selectBody ([], t) =
        .ok ((rows.take k).map (fun r => printRow r.stored), t) := by
  intro k
  induction k with
  | zero => intro _; rfl
  | succ k ih =>
    intro hk
    have hk' : k < rows.length := by omega
    have hget : rows[k]? = some rows[k] := List.getElem?_eq_getElem hk'
    rw [forLoop_succ, ih (by omega)]
    simp only [selectBody, bind, Except.bind, fetchRow_stored t rows k _ hs hget,
      pure, Except.pure]
    rw [List.take_succ, hget]
    simp only [Option.toList_some, List.map_append, List.map_cons, List.map_nil]

theorem executeSelect_stored (stmt : Statement) (t : Table) (rows : List Row)
    (hs : Stored t rows) :
    executeSelect stmt t =
      .ok (ExecuteResult.EXECUTE_SUCCESS, rows.map (fun r => printRow r.stored), t) := by
  have h := selectLoop_stored t rows hs rows.length (le_refl _)
  rw [List.take_length, ← hs.1] at h
  simp only [executeSelect, h, bind, Except.bind, pure, Except.pure]

theorem zero_mem_strncpy (src : List Nat) (n : Nat) (h : (cstr src).length < n) :
    0 ∈ strncpy src n := by
  unfold strncpy
  rw [List.take_of_length_le (by omega)]
  obtain ⟨k, hk⟩ : ∃ k, n - (cstr src).length = k + 1 := ⟨n - (cstr src).length - 1, by omega⟩
  rw [hk, List.replicate_succ]
  simp

theorem cstr_length_lt_of_mem (buf : List Nat) (h : 0 ∈ buf) : (cstr buf).length < buf.length := by
  induction buf with
  | nil => simp at h
  | cons a as ih =>
    by_cases ha : a = 0
    · subst ha
      simp [cstr_cons_zero]
    · have : 0 ∈ as := by
        rcases List.mem_cons.mp h with e | e
        · exact absurd e.symm ha
        · exact e
      rw [cstr_cons_ne _ _ ha]
      simp only [List.length_cons]
      have := ih this
      omega

theorem printRow_stored (r : Row) (h : r.Valid) :
    printRow r.stored = Output.row (some (cstr r.task)) r.hours (some (cstr r.date)) := by
  obtain ⟨a, b, c⟩ := stored_text r h
  obtain ⟨h1, h2, _, _, h5⟩ := h
  have hz : 0 ∈ r.stored.task := by
    show 0 ∈ strncpy r.task TASK_SIZE
    apply zero_mem_strncpy
    have := cstr_length_lt_of_mem r.task h2
    omega
  simp only [printRow, printed, hz, if_true, a, b, c, h5]

/-- C3. Capacity boundary.  From the empty table, any `n ≤ TABLE_MAX_ROWS`
calls of `executeInsert` all return `EXECUTE_SUCCESS` and leave `numRows = n`;
on any table below capacity a call returns `EXECUTE_SUCCESS` and raises
`numRows` by exactly one; on a table with `numRows = TABLE_MAX_ROWS` a call
returns `EXECUTE_TABLE_FULL` and gives back the very same table, so `numRows`
and every page are unchanged. -/
theorem C3_capacity (heap : Nat → Mem) (rows : List Row) (stmt : Statement) (t : Table) :
    (rows.length ≤ TABLE_MAX_ROWS →
      ∃ t', insertRows (openDB [] heap) rows =
          .ok (List.replicate rows.length ExecuteResult.EXECUTE_SUCCESS, t') ∧
        t'.numRows = rows.length) ∧
    (t.numRows < TABLE_MAX_ROWS →
      ∃ t', executeInsert stmt t = .ok (ExecuteResult.EXECUTE_SUCCESS, t') ∧
        t'.numRows = t.numRows + 1) ∧
    (t.numRows = TABLE_MAX_ROWS →
      executeInsert stmt t = .ok (ExecuteResult.EXECUTE_TABLE_FULL, t)) := by
  refine ⟨?_, ?_, ?_⟩
  · intro hlen
    obtain ⟨t', hi, hs, _⟩ := insertRows_stored rows (openDB [] heap) [] (stored_open_empty heap)
      (by simpa using hlen)
    exact ⟨t', hi, by simpa using hs.1⟩
  · intro hlt
    obtain ⟨page, pager', _, _, _, _, he⟩ := executeInsert_ok stmt t hlt
    exact ⟨_, he, rfl⟩
  · intro heq
    exact executeInsert_full stmt t (by omega)

/-- C6. Scan within a session.  After `n ≤ TABLE_MAX_ROWS` inserts of valid rows
`r_1 .. r_n` into a fresh empty database, all of which succeed, `executeSelect`
returns `EXECUTE_SUCCESS` and prints exactly `n` rows, the `i`-th carrying the
task text of `r_i`, the hours bytes of `r_i` and the date text of `r_i`, and
leaves the table as it was; on the fresh empty database itself it prints
nothing and does not fail. -/
theorem C6_scan (heap : Nat → Mem) (rows : List Row) (stmt : Statement)
    (hlen : rows.length ≤ TABLE_MAX_ROWS) (hv : ∀ r ∈ rows, r.Valid) :
    (∃ t, insertRows (openDB [] heap) rows =
        .ok (List.replicate rows.length ExecuteResult.EXECUTE_SUCCESS, t) ∧
      t.numRows = rows.length ∧
      executeSelect stmt t = .ok (ExecuteResult.EXECUTE_SUCCESS,
        rows.map (fun r => Output.row (some (r.task.takeWhile (fun c => c ≠ 0))) r.hours
          (some (r.date.takeWhile (fun c => c ≠ 0)))), t)) ∧
    executeSelect stmt (openDB [] heap) =
      .ok (ExecuteResult.EXECUTE_SUCCESS, [], openDB [] heap) := by
  refine ⟨?_, ?_⟩
  · obtain ⟨t, hi, hs, _⟩ := insertRows_stored rows (openDB [] heap) [] (stored_open_empty heap)
      (by simpa using hlen)
    rw [List.nil_append] at hs
    refine ⟨t, hi, hs.1, ?_⟩
    rw [executeSelect_stored stmt t rows hs]
    congr 3
    apply List.map_congr_left
    intro r hr
    exact printRow_stored r (hv r hr)
  · simpa using executeSelect_stored stmt (openDB [] heap) [] (stored_open_empty heap)

theorem fileWrite_length (f : List Nat) (off : Nat) (data : List Nat) :
    (fileWrite f off data).length = max f.length (off + data.length) := by
  simp only [fileWrite, List.length_append, List.length_take, List.length_replicate,
    List.length_drop]
  omega

theorem pagerFlush_populated (p : Pager) (i size : Nat) (page : Mem)
    (hi : i < TABLE_MAX_PAGES) (hp : p.pages i = some page) :
    pagerFlush p i size = .ok { p with
      file := fileWrite p.file (i * PAGE_SIZE) (memRead page 0 size)
      trace := FileOp.write (i * PAGE_SIZE) size :: p.trace } := by
  simp only [pagerFlush, pageAt_lt p i hi, hp, bind, Except.bind, pure, Except.pure]

theorem closeFullPage_populated (p : Pager) (i : Nat) (page : Mem)
    (hi : i < TABLE_MAX_PAGES) (hp : p.pages i = some page) :
    closeFullPage i p = .ok (setPage { p with
      file := fileWrite p.file (i * PAGE_SIZE) (memRead page 0 PAGE_SIZE)
      trace := FileOp.write (i * PAGE_SIZE) PAGE_SIZE :: p.trace } i none) := by
  simp only [closeFullPage, pageAt_lt p i hi, hp, pagerFlush_populated p i PAGE_SIZE page hi hp,
    bind, Except.bind, pure, Except.pure]

theorem closeFull_loop (pager : Pager) (hfile : pager.file = []) :
    ∀ k, k ≤ TABLE_MAX_PAGES → (∀ j, j < k → ∃ page, pager.pages j = some page) →
      ∃ p', forLoop k closeFullPage pager = .ok p' ∧ p'.file.length = k * PAGE_SIZE ∧
        (∀ j, k ≤ j → p'.pages j = pager.pages j) ∧
        p'.trace = (List.range k).reverse.map (fun j => FileOp.write (j * PAGE_SIZE) PAGE_SIZE)
          ++ pager.trace := by
  intro k
  induction k with
  | zero =>
    intro _ _
    exact ⟨pager, rfl, by simp [hfile], fun _ _ => rfl, by simp⟩
  | succ k ih =>
    intro hk hpop
    obtain ⟨p1, h1, hlen, hpages, htrace⟩ := ih (by omega) (fun j hj => hpop j (by omega))
    obtain ⟨page, hpage⟩ := hpop k (by omega)
    have hp1 : p1.pages k = some page := by rw [hpages k (le_refl _), hpage]
    rw [forLoop_succ, h1]
    refine ⟨_, closeFullPage_populated p1 k page (by omega) hp1, ?_, ?_, ?_⟩
    · simp only [setPage, fileWrite_length, memRead_length, hlen]
      rw [Nat.succ_mul]
      omega
    · intro j hj
      have hjk : j ≠ k := by omega
      simp only [setPage, Function.update, hjk, dite_false]
      exact hpages j (by omega)
    · simp only [setPage, htrace, List.range_succ, List.reverse_append, List.reverse_cons,
        List.reverse_nil, List.nil_append, List.map_append, List.map_cons, List.map_nil,
        List.singleton_append, List.cons_append]

theorem free_loop (pager : Pager) :
    ∀ k, k ≤ TABLE_MAX_PAGES →
      ∃ p', forLoop k freePage pager = .ok p' ∧ p'.file = pager.file ∧
        p'.trace = pager.trace := by
  intro k
  induction k with
  | zero => intro _; exact ⟨pager, rfl, rfl, rfl⟩
  | succ k ih =>
    intro hk
    obtain ⟨p1, h1, hf, ht⟩ := ih (by omega)
    rw [forLoop_succ, h1]
    cases hp : p1.pages k with
    | none =>
      exact ⟨p1, by simp only [freePage, pageAt_lt p1 k (by omega), hp, bind, Except.bind,
        pure, Except.pure], hf, ht⟩
    | some page =>
      exact ⟨setPage p1 k none, by simp only [freePage, pageAt_lt p1 k (by omega), hp, bind,
        Except.bind, pure, Except.pure], hf, ht⟩

theorem stored_populated (t : Table) (rows : List Row) (hs : Stored t rows) (j : Nat)
    (hj : j * ROWS_PER_PAGE < rows.length) : ∃ page, t.pager.pages j = some page := by
  obtain ⟨page, hp, _⟩ := hs.2.2 (j * ROWS_PER_PAGE) _ (List.getElem?_eq_getElem hj)
  rw [ROWS_PER_PAGE_eq] at hp
  rw [Nat.mul_div_cancel _ (by norm_num : 0 < 58)] at hp
  exact ⟨page, hp⟩

/-- Closing a table that holds `rows` over an empty backing file: the file
left behind and the writes issued. -/
theorem closeDB_fresh (t : Table) (rows : List Row) (hs : Stored t rows)
    (hfile : t.pager.file = []) :
    ∃ p, closeDB t = .ok p ∧
      p.file.length = rows.length / ROWS_PER_PAGE * PAGE_SIZE +
        rows.length % ROWS_PER_PAGE * ROW_SIZE ∧
      p.trace =
        (if rows.length % ROWS_PER_PAGE > 0 then
          [FileOp.write (rows.length / ROWS_PER_PAGE * PAGE_SIZE)
            (rows.length % ROWS_PER_PAGE * ROW_SIZE)] else []) ++
        (List.range (rows.length / ROWS_PER_PAGE)).reverse.map
          (fun j => FileOp.write (j * PAGE_SIZE) PAGE_SIZE) ++ t.pager.trace := by
  have hn := hs.1
  have hmax := hs.2.1
  rw [TABLE_MAX_ROWS_eq] at hmax
  have hk : rows.length / ROWS_PER_PAGE ≤ TABLE_MAX_PAGES := by
    rw [ROWS_PER_PAGE_eq, TABLE_MAX_PAGES_eq]; omega
  obtain ⟨p1, h1, hlen, hpages, htrace⟩ := closeFull_loop t.pager hfile
    (rows.length / ROWS_PER_PAGE) hk (fun j hj => stored_populated t rows hs j (by
      rw [ROWS_PER_PAGE_eq] at hj ⊢
      omega))
  have hclose : ∀ p2, closeTailPage (rows.length / ROWS_PER_PAGE)
      (rows.length % ROWS_PER_PAGE) p1 = .ok p2 →
      closeDB t = forLoop TABLE_MAX_PAGES freePage p2 := by
    intro p2 h2
    unfold closeDB
    simp only [hn, h1, bind, Except.bind, h2]
  by_cases hr : rows.length % ROWS_PER_PAGE > 0
  · have hlt : rows.length / ROWS_PER_PAGE < TABLE_MAX_PAGES := by
      rw [ROWS_PER_PAGE_eq] at hr ⊢
      rw [TABLE_MAX_PAGES_eq]
      omega
    obtain ⟨page, hpage⟩ := stored_populated t rows hs (rows.length / ROWS_PER_PAGE) (by
      rw [ROWS_PER_PAGE_eq] at hr ⊢
      omega)
    have hp1 : p1.pages (rows.length / ROWS_PER_PAGE) = some page := by
      rw [hpages _ (le_refl _), hpage]
    have h2 : closeTailPage (rows.length / ROWS_PER_PAGE) (rows.length % ROWS_PER_PAGE) p1 =
        .ok (setPage { p1 with
          file := fileWrite p1.file (rows.length / ROWS_PER_PAGE * PAGE_SIZE)
            (memRead page 0 (rows.length % ROWS_PER_PAGE * ROW_SIZE))
          trace := FileOp.write (rows.length / ROWS_PER_PAGE * PAGE_SIZE)
            (rows.length % ROWS_PER_PAGE * ROW_SIZE) :: p1.trace }
          (rows.length / ROWS_PER_PAGE) none) := by
      simp only [closeTailPage, hr, if_true, pageAt_lt p1 _ hlt, hp1,
        pagerFlush_populated p1 _ _ page hlt hp1, bind, Except.bind, pure, Except.pure]
    obtain ⟨p3, h3, hf3, ht3⟩ := free_loop _ TABLE_MAX_PAGES (le_refl _)
    refine ⟨p3, by rw [hclose _ h2, h3], ?_, ?_⟩
    · rw [hf3]
      simp only [setPage, fileWrite_length, memRead_length, hlen]
      omega
    · rw [ht3]
      simp only [setPage, htrace, hr, if_true, List.singleton_append, List.cons_append,
        List.append_assoc, List.nil_append]
  · have h2 : closeTailPage (rows.length / ROWS_PER_PAGE) (rows.length % ROWS_PER_PAGE) p1 =
        .ok p1 := by
      simp only [closeTailPage, hr, if_false, pure, Except.pure]
    obtain ⟨p3, h3, hf3, ht3⟩ := free_loop p1 TABLE_MAX_PAGES (le_refl _)
    refine ⟨p3, by rw [hclose _ h2, h3], ?_, ?_⟩
    · rw [hf3, hlen]
      have : rows.length % ROWS_PER_PAGE = 0 := by omega
      rw [this]
      omega
    · rw [ht3, htrace]
      simp only [hr, if_false, List.nil_append]

/-- Witness for C2: the round trip of `writeupRow` through offset 140 of a zeroed page. -/
theorem C2_roundtrip_witness :
    writeupRow.Valid ∧
    cstr (deserializeRow (serializeRow writeupRow (zeroHeap 0) 140) 140).task
      = cstr writeupRow.task ∧
    (deserializeRow (serializeRow writeupRow (zeroHeap 0) 140) 140).hours = writeupRow.hours ∧
    cstr (deserializeRow (serializeRow writeupRow (zeroHeap 0) 140) 140).date
      = cstr writeupRow.date :=
  ⟨by decide, C2_roundtrip writeupRow (zeroHeap 0) 140 (by decide)⟩

/-- Witness for C3: two inserts into the fresh empty table, one insert below
capacity, and one insert into a table of 5800 rows. -/
theorem C3_capacity_witness :
    (∃ t', insertRows (openDB [] zeroHeap) [writeupRow, reviewRow] =
        .ok (List.replicate 2 ExecuteResult.EXECUTE_SUCCESS, t') ∧ t'.numRows = 2) ∧
    (∃ t', executeInsert writeupInsert (openDB [] zeroHeap) =
        .ok (ExecuteResult.EXECUTE_SUCCESS, t') ∧ t'.numRows = 0 + 1) ∧
    executeInsert writeupInsert { pager := pagerOpen [] zeroHeap, numRows := 5800 } =
      .ok (ExecuteResult.EXECUTE_TABLE_FULL, { pager := pagerOpen [] zeroHeap, numRows := 5800 }) :=
  ⟨(C3_capacity zeroHeap [writeupRow, reviewRow] writeupInsert (openDB [] zeroHeap)).1
      (by decide),
    (C3_capacity zeroHeap [] writeupInsert (openDB [] zeroHeap)).2.1 (by decide),
    (C3_capacity zeroHeap [] writeupInsert
      { pager := pagerOpen [] zeroHeap, numRows := 5800 }).2.2 (by decide)⟩

/-- Witness for C4: rows 59 and 60 of the fresh empty table both lie in page 1,
at offsets 70 and 140, in disjoint ranges. -/
theorem C4_row_addressing_witness :
    59 < TABLE_MAX_ROWS ∧
    (∃ slot t', getRowSlot (openDB [] zeroHeap) 59 = .ok (slot, t')) ∧
    (slot59.pageNum = 59 / ROWS_PER_PAGE ∧ slot59.byteOffset = 59 % ROWS_PER_PAGE * ROW_SIZE) ∧
    (slot59.byteOffset + ROW_SIZE ≤ slot60.byteOffset ∨
      slot60.byteOffset + ROW_SIZE ≤ slot59.byteOffset) ∧
    slot59.pageNum ≤ slot60.pageNum :=
  ⟨by decide,
    (C4_row_addressing (openDB [] zeroHeap) (openDB [] zeroHeap) 59 60).1 (by decide),
    (C4_row_addressing (openDB [] zeroHeap) (openDB [] zeroHeap) 59 60).2.1
      slot59 pageOneTable rfl,
    ((C4_row_addressing (openDB [] zeroHeap) (openDB [] zeroHeap) 59 60).2.2
      slot59 pageOneTable slot60 pageOneTable rfl rfl).2.1 (by decide) rfl,
    ((C4_row_addressing (openDB [] zeroHeap) (openDB [] zeroHeap) 59 60).2.2
      slot59 pageOneTable slot60 pageOneTable rfl rfl).2.2 (by decide)⟩

/-- Witness for C6: two rows inserted are printed back in order, with their
texts and hours written out. -/
theorem C6_scan_witness :
    (∃ t, insertRows (openDB [] zeroHeap) [writeupRow, reviewRow] =
        .ok (List.replicate 2 ExecuteResult.EXECUTE_SUCCESS, t) ∧
      t.numRows = 2 ∧
      executeSelect writeupInsert t =
        .ok (ExecuteResult.EXECUTE_SUCCESS,
          [Output.row (some [119, 114, 105, 116, 101, 117, 112]) [0, 0, 0, 64]
              (some [70, 114, 105]),
            Output.row (some [114, 101, 118, 105, 101, 119]) [0, 0, 64, 64]
              (some [83, 97, 116])], t)) ∧
    executeSelect writeupInsert (openDB [] zeroHeap) =
      .ok (ExecuteResult.EXECUTE_SUCCESS, [], openDB [] zeroHeap) :=
  C6_scan zeroHeap [writeupRow, reviewRow] writeupInsert (by decide) (by decide)

/-- C1 (evaluation at the failing input). Insert 116 rows (two full pages) into
a fresh empty database and close it: all inserts succeed, `numRows` is 116 and
`closeDB` leaves a file of 8192 bytes; `openDB` on that file reports
`numRows = 117`, not 116. -/
theorem C1_reopen_two_full_pages (heap heap2 : Nat → Mem) :
    ∃ t p, insertRows (openDB [] heap) (List.replicate 116 writeupRow) =
        .ok (List.replicate 116 ExecuteResult.EXECUTE_SUCCESS, t) ∧
      t.numRows = 116 ∧ closeDB t = .ok p ∧ p.file.length = 8192 ∧
      (openDB p.file heap2).numRows = 117 := by
  have h116 : (List.replicate 116 writeupRow).length = 116 := List.length_replicate _ _
  obtain ⟨t, hi, hs, hf⟩ := insertRows_stored (List.replicate 116 writeupRow)
    (openDB [] heap) [] (stored_open_empty heap) (by
      rw [h116, TABLE_MAX_ROWS_eq]; decide)
  rw [List.nil_append] at hs
  obtain ⟨p, hc, hl, _⟩ := closeDB_fresh t _ hs (by rw [hf]; rfl)
  rw [h116] at hi hl
  have hn := hs.1
  rw [h116] at hn
  have hlen : p.file.length = 8192 := by
    rw [hl, ROWS_PER_PAGE_eq, PAGE_SIZE_eq, ROW_SIZE_eq]
  refine ⟨t, p, hi, hn, hc, hlen, ?_⟩
  show p.file.length % 2 ^ 32 / ROW_SIZE = 117
  rw [hlen, ROW_SIZE_eq]
  norm_num

theorem fetchRow_ok (t : Table) (i : Nat) (hi : i < TABLE_MAX_ROWS) :
    ∃ row t', fetchRow t i = .ok (row, t') := by
  obtain ⟨slot, t', h⟩ := getRowSlot_ok t i (page_lt_of_row_lt i hi)
  exact ⟨deserializeRow slot.page slot.byteOffset, t',
    by simp only [fetchRow, h, bind, Except.bind, pure, Except.pure]⟩

theorem getPage_at_limit (pager : Pager) :
    getPage pager TABLE_MAX_PAGES = .error Fault.outOfBounds := by
  simp [getPage, pageAt, bind, Except.bind, throw, throwThe, MonadExceptOf.throw]

theorem fetchRow_at_limit (t : Table) : fetchRow t TABLE_MAX_ROWS = .error Fault.outOfBounds := by
  have h : TABLE_MAX_ROWS / ROWS_PER_PAGE = TABLE_MAX_PAGES := by decide
  simp only [fetchRow, getRowSlot, h, getPage_at_limit, bind, Except.bind]

theorem selectLoop_ok : ∀ k, k ≤ TABLE_MAX_ROWS → ∀ s : List Output × Table,
    ∃ s', forLoop k selectBody s = .ok s' := by
  intro k
  induction k with
  | zero => intro _ s; exact ⟨s, rfl⟩
  | succ k ih =>
    intro hk s
    obtain ⟨s1, h1⟩ := ih (by omega) s
    obtain ⟨row, t', hf⟩ := fetchRow_ok s1.2 k (by omega)
    rw [forLoop_succ, h1]
    exact ⟨(s1.1 ++ [printRow row], t'),
      by simp only [selectBody, hf, bind, Except.bind, pure, Except.pure]⟩

/-- C7 (evaluation at the failing input). `getPage` with `pageNum = TABLE_MAX_PAGES`
does not take the fatal exit: the bound check `pageNum > TABLE_MAX_PAGES` lets it
through to `pages[TABLE_MAX_PAGES]`, one past the end of the array; only indices
above `TABLE_MAX_PAGES` exit.  The index is reached by `select` on a database
file of 406070 bytes (5801 rows of 70 bytes). -/
theorem C7_getPage_accepts_limit (pager : Pager) (k : Nat) (stmt : Statement)
    (heap : Nat → Mem) :
    getPage pager TABLE_MAX_PAGES = .error Fault.outOfBounds ∧
    getPage pager TABLE_MAX_PAGES ≠ .error Fault.exitFailure ∧
    getPage pager (TABLE_MAX_PAGES + 1 + k) = .error Fault.exitFailure ∧
    (openDB (List.replicate 406070 0) heap).numRows = 5801 ∧
    executeSelect stmt (openDB (List.replicate 406070 0) heap) = .error Fault.outOfBounds := by
  have hnum : (openDB (List.replicate 406070 0) heap).numRows = TABLE_MAX_ROWS + 1 := by
    simp only [openDB, pagerOpen, List.length_replicate, ROW_SIZE_eq, TABLE_MAX_ROWS_eq]
    norm_num
  refine ⟨getPage_at_limit pager, ?_, ?_, by rw [hnum, TABLE_MAX_ROWS_eq], ?_⟩
  · rw [getPage_at_limit]
    simp
  · have h : TABLE_MAX_PAGES + 1 + k > TABLE_MAX_PAGES := by omega
    simp only [getPage, h, if_true, throw, throwThe, MonadExceptOf.throw]
  · obtain ⟨s1, h1⟩ := selectLoop_ok TABLE_MAX_ROWS (le_refl _)
      ([], openDB (List.replicate 406070 0) heap)
    unfold executeSelect
    rw [hnum, forLoop_succ, h1]
    simp only [selectBody, fetchRow_at_limit, bind, Except.bind]

theorem prepareInsert_fst (fl : FloatOps) (now line : List Nat) (stmt : Statement) :
    (prepareInsert fl now line stmt).1 =
      match taskToken line, hoursToken line with
      | some task, some _ =>
        if task.length > COLUMN_TASK_SIZE then PrepareResult.PREPARE_STRING_TOO_LONG
        else PrepareResult.PREPARE_SUCCESS
      | _, _ => PrepareResult.PREPARE_SYNTAX_ERROR := by
  unfold prepareInsert taskToken hoursToken
  rcases strtok (cstr line) with ⟨kw, r1⟩
  dsimp only
  rcases strtok r1 with ⟨task, r2⟩
  dsimp only
  rcases strtok r2 with ⟨hs, r3⟩
  cases task <;> cases hs <;> dsimp only
  split <;> rfl

theorem head_of_insert (line : List Nat) (h : strncmp line insertLit 6 = 0) :
    line.head? = some 105 := by
  cases line with
  | nil => exact absurd h (by decide)
  | cons a as =>
    by_cases ha : a = 105
    · simp [ha]
    · exfalso
      have : strncmp (a :: as) insertLit 6 = (a : Int) - 105 := by
        simp [strncmp, insertLit, strcmp, ha]
      rw [this] at h
      omega

theorem mainStep_rejected (fl : FloatOps) (env : Env) (table : Table) (line : List Nat)
    (h : strncmp line insertLit 6 = 0) :
    ((prepareStatement fl env.now line env.stack).1 = PrepareResult.PREPARE_STRING_TOO_LONG →
      mainStep fl env table line = .ok (Step.next table [Output.stringTooLong])) ∧
    ((prepareStatement fl env.now line env.stack).1 = PrepareResult.PREPARE_SYNTAX_ERROR →
      mainStep fl env table line = .ok (Step.next table [Output.syntaxError])) := by
  have hh : ¬ (line.head? = some 46) := by rw [head_of_insert line h]; decide
  unfold mainStep
  rw [if_neg hh]
  rcases prepareStatement fl env.now line env.stack with ⟨res, st⟩
  cases res <;> simp [pure, Except.pure]

/-- C8 (as amended). For an input line that starts with the insert keyword,
`prepareStatement` returns `PREPARE_STRING_TOO_LONG` when the task token is
longer than 32 bytes and an hours token is present, and `PREPARE_SYNTAX_ERROR`
when the task token or the hours token is missing; in both cases the turn of
the command loop ends back at the prompt with the very same table, so `numRows`
and every page are unchanged, and only the message is printed. -/
theorem C8_insert_validation (fl : FloatOps) (env : Env) (table : Table) (line : List Nat)
    (h : strncmp line insertLit 6 = 0) :
    ((∃ task, taskToken line = some task ∧ COLUMN_TASK_SIZE < task.length) →
      (∃ hs, hoursToken line = some hs) →
      (prepareStatement fl env.now line env.stack).1 = PrepareResult.PREPARE_STRING_TOO_LONG ∧
      mainStep fl env table line = .ok (Step.next table [Output.stringTooLong])) ∧
    ((taskToken line = none ∨ hoursToken line = none) →
      (prepareStatement fl env.now line env.stack).1 = PrepareResult.PREPARE_SYNTAX_ERROR ∧
      mainStep fl env table line = .ok (Step.next table [Output.syntaxError])) := by
  have hp : (prepareStatement fl env.now line env.stack).1
      = (prepareInsert fl env.now line env.stack).1 := by
    unfold prepareStatement
    rw [if_pos h]
  obtain ⟨m1, m2⟩ := mainStep_rejected fl env table line h
  refine ⟨?_, ?_⟩
  · rintro ⟨task, ht, hlen⟩ ⟨hs, hhs⟩
    have : (prepareStatement fl env.now line env.stack).1
        = PrepareResult.PREPARE_STRING_TOO_LONG := by
      rw [hp, prepareInsert_fst, ht, hhs]
      simp [hlen]
    exact ⟨this, m1 this⟩
  · intro hmiss
    have : (prepareStatement fl env.now line env.stack).1
        = PrepareResult.PREPARE_SYNTAX_ERROR := by
      rw [hp, prepareInsert_fst]
      rcases hmiss with hm | hm
      · rw [hm]
      · rw [hm]
        cases taskToken line <;> rfl
    exact ⟨this, m2 this⟩

/-- Witness for C8: a 33-byte task with an hours token is too long; a task
without an hours token is a syntax error; the table is the same afterwards. -/
theorem C8_insert_validation_witness :
    ((prepareStatement nullFloat sampleEnv.now longTaskWithHours sampleEnv.stack).1
        = PrepareResult.PREPARE_STRING_TOO_LONG ∧
      mainStep nullFloat sampleEnv (openDB [] zeroHeap) longTaskWithHours =
        .ok (Step.next (openDB [] zeroHeap) [Output.stringTooLong])) ∧
    ((prepareStatement nullFloat sampleEnv.now insertNoHours sampleEnv.stack).1
        = PrepareResult.PREPARE_SYNTAX_ERROR ∧
      mainStep nullFloat sampleEnv (openDB [] zeroHeap) insertNoHours =
        .ok (Step.next (openDB [] zeroHeap) [Output.syntaxError])) :=
  ⟨(C8_insert_validation nullFloat sampleEnv (openDB [] zeroHeap) longTaskWithHours
      (by decide)).1 ⟨List.replicate 33 97, by decide, by decide⟩ ⟨[53], by decide⟩,
    (C8_insert_validation nullFloat sampleEnv (openDB [] zeroHeap) insertNoHours
      (by decide)).2 (Or.inr (by decide))⟩

/-- C8 (counterexample to the claim as stated). The line `insert` followed by a
task token of 33 bytes and no hours token starts with the insert keyword and
has a task token longer than 32 bytes, yet `prepareStatement` returns
`PREPARE_SYNTAX_ERROR`, not `PREPARE_STRING_TOO_LONG`. -/
theorem C8_long_task_without_hours :
    strncmp longTaskNoHours insertLit 6 = 0 ∧
    (∃ task, taskToken longTaskNoHours = some task ∧ COLUMN_TASK_SIZE < task.length) ∧
    (prepareStatement nullFloat sampleEnv.now longTaskNoHours sampleEnv.stack).1
      = PrepareResult.PREPARE_SYNTAX_ERROR ∧
    (prepareStatement nullFloat sampleEnv.now longTaskNoHours sampleEnv.stack).1
      ≠ PrepareResult.PREPARE_STRING_TOO_LONG := by
  have h : (prepareStatement nullFloat sampleEnv.now longTaskNoHours sampleEnv.stack).1
      = PrepareResult.PREPARE_SYNTAX_ERROR := by
    unfold prepareStatement
    rw [if_pos (by decide), prepareInsert_fst]
    have h1 : taskToken longTaskNoHours = some (List.replicate 33 97) := by decide
    have h2 : hoursToken longTaskNoHours = none := by decide
    rw [h1, h2]
  refine ⟨by decide, ⟨List.replicate 33 97, by decide, by decide⟩, h, ?_⟩
  rw [h]
  decide

theorem strcmp_eq_zero_iff (a : List Nat) : ∀ b, strcmp a b = 0 ↔ cstr a = cstr b := by
  induction a with
  | nil =>
    intro b
    cases b with
    | nil => simp [strcmp]
    | cons y ys =>
      by_cases hy : y = 0
      · subst hy
        simp [strcmp, cstr_cons_zero, cstr]
      · simp [strcmp, cstr_cons_ne _ _ hy, cstr, hy]
  | cons x xs ih =>
    intro b
    cases b with
    | nil =>
      by_cases hx : x = 0
      · subst hx
        simp [strcmp, cstr_cons_zero, cstr]
      · simp [strcmp, cstr_cons_ne _ _ hx, cstr, hx]
    | cons y ys =>
      by_cases hxy : x = y
      · subst hxy
        by_cases hx : x = 0
        · subst hx
          simp [strcmp, cstr_cons_zero]
        · simp [strcmp, cstr_cons_ne _ _ hx, hx, ih ys]
      · have hne : (x : Int) - (y : Int) ≠ 0 := by omega
        simp only [strcmp, hxy, ne_eq, not_false_eq_true, if_true, hne, false_iff]
        by_cases hx : x = 0
        · subst hx
          have hy : y ≠ 0 := fun e => hxy e.symm
          simp [cstr_cons_zero, cstr_cons_ne _ _ hy]
        · by_cases hy : y = 0
          · subst hy
            simp [cstr_cons_zero, cstr_cons_ne _ _ hx]
          · simp [cstr_cons_ne _ _ hx, cstr_cons_ne _ _ hy, hxy]

theorem loop_scan {α : Type} (g : α → Row → α)
    (body : Nat → α × Table → Except Fault (α × Table))
    (hbody : ∀ i s, body i s = fetchRow s.2 i >>= fun p => pure (g s.1 p.1, p.2))
    (a0 : α) (t : Table) :
    ∀ k, forLoop k body (a0, t) =
      forLoop k scanBody ([], t) >>= fun s => pure (s.1.foldl g a0, s.2) := by
  intro k
  induction k with
  | zero => rfl
  | succ k ih =>
    rw [forLoop_succ, forLoop_succ, ih]
    cases hk : forLoop k scanBody ([], t) with
    | error e => rfl
    | ok s =>
      obtain ⟨rows, t1⟩ := s
      simp only [bind, Except.bind, pure, Except.pure, hbody, scanBody]
      cases fetchRow t1 k with
      | error e => rfl
      | ok p => simp [List.foldl_append]

theorem scanLoop_ok (t : Table) : ∀ k, k ≤ TABLE_MAX_ROWS →
    ∃ rows t', forLoop k scanBody ([], t) = .ok (rows, t') ∧ rows.length = k := by
  intro k
  induction k with
  | zero => intro _; exact ⟨[], t, rfl, rfl⟩
  | succ k ih =>
    intro hk
    obtain ⟨rows, t1, h1, hl⟩ := ih (by omega)
    obtain ⟨row, t2, hf⟩ := fetchRow_ok t1 k (by omega)
    rw [forLoop_succ, h1]
    exact ⟨rows ++ [row], t2,
      by simp only [scanBody, hf, bind, Except.bind, pure, Except.pure],
      by simp [hl]⟩

theorem scanRows_ok (t : Table) (h : t.numRows ≤ TABLE_MAX_ROWS) :
    ∃ rows t', scanRows t = .ok (rows, t') ∧ rows.length = t.numRows :=
  scanLoop_ok t t.numRows h

theorem scanLoop_stored (t : Table) (rows : List Row) (hs : Stored t rows) :
    ∀ k, k ≤ rows.length →
      forLoop k scanBody ([], t) = .ok ((rows.take k).map Row.stored, t) := by
  intro k
  induction k with
  | zero => intro _; rfl
  | succ k ih =>
    intro hk
    have hk' : k < rows.length := by omega
    have hget : rows[k]? = some rows[k] := List.getElem?_eq_getElem hk'
    rw [forLoop_succ, ih (by omega)]
    simp only [scanBody, bind, Except.bind, fetchRow_stored t rows k _ hs hget,
      pure, Except.pure]
    rw [List.take_succ, hget]
    simp only [Option.toList_some, List.map_append, List.map_cons, List.map_nil]

theorem scanRows_stored (t : Table) (rows : List Row) (hs : Stored t rows) :
    scanRows t = .ok (rows.map Row.stored, t) := by
  have h := scanLoop_stored t rows hs rows.length (le_refl _)
  rw [List.take_length, ← hs.1] at h
  exact h

theorem executeAverage_scan (fl : FloatOps) (stmt : Statement) (t : Table) :
    executeAverage fl stmt t = scanRows t >>= fun s =>
      pure (ExecuteResult.EXECUTE_SUCCESS,
        [averageLine fl stmt.selectedTask
          (s.1.foldl (averageStep fl stmt.selectedTask) (fl.ofInt 0, 0))], s.2) := by
  unfold executeAverage scanRows
  rw [loop_scan (averageStep fl stmt.selectedTask) (averageBody fl stmt) (fun _ _ => rfl)]
  cases forLoop t.numRows scanBody ([], t) with
  | error e => rfl
  | ok s => rfl

theorem executeTotal_scan (fl : FloatOps) (stmt : Statement) (t : Table) :
    executeTotal fl stmt t = scanRows t >>= fun s =>
      pure (ExecuteResult.EXECUTE_SUCCESS,
        [Output.total (cstr stmt.selectedTask)
          (s.1.foldl (totalStep fl stmt.selectedTask) (fl.ofInt 0))], s.2) := by
  unfold executeTotal scanRows
  rw [loop_scan (totalStep fl stmt.selectedTask) (totalBody fl stmt) (fun _ _ => rfl)]
  cases forLoop t.numRows scanBody ([], t) with
  | error e => rfl
  | ok s => rfl

theorem foldl_averageStep_all (fl : FloatOps) (sel : List Nat)
    (hsel : strcmp sel starLit = 0) (rows : List Row) :
    ∀ acc : List Nat × Nat, rows.foldl (averageStep fl sel) acc =
      (rows.foldl (fun total row => fl.add total row.hours) acc.1, acc.2 + rows.length) := by
  induction rows with
  | nil => intro acc; rfl
  | cons r rows ih =>
    intro acc
    rw [List.foldl_cons, ih]
    simp only [averageStep, hsel, true_or, if_true, List.foldl_cons, List.length_cons]
    congr 1
    omega

theorem foldl_averageStep_task (fl : FloatOps) (sel : List Nat)
    (hsel : ¬ strcmp sel starLit = 0) (rows : List Row) :
    ∀ acc : List Nat × Nat, rows.foldl (averageStep fl sel) acc =
      ((withTask (cstr sel) rows).foldl (fun total row => fl.add total row.hours) acc.1,
        acc.2 + (withTask (cstr sel) rows).length) := by
  induction rows with
  | nil => intro acc; rfl
  | cons r rows ih =>
    intro acc
    rw [List.foldl_cons, ih]
    by_cases hr : cstr r.task = cstr sel
    · have h0 : strcmp r.task sel = 0 := (strcmp_eq_zero_iff _ _).mpr hr
      simp only [averageStep, h0, or_true, if_true, withTask, List.filter_cons, hr,
        decide_True, List.foldl_cons, List.length_cons]
      congr 1
      omega
    · have h0 : ¬ strcmp r.task sel = 0 := fun h => hr ((strcmp_eq_zero_iff _ _).mp h)
      simp only [averageStep, h0, hsel, or_self, if_false, withTask, List.filter_cons, hr,
        decide_False]
      rfl

theorem foldl_totalStep (fl : FloatOps) (sel : List Nat) (rows : List Row) :
    ∀ total : List Nat, rows.foldl (totalStep fl sel) total =
      (withTask (cstr sel) rows).foldl (fun total row => fl.add total row.hours) total := by
  induction rows with
  | nil => intro acc; rfl
  | cons r rows ih =>
    intro acc
    rw [List.foldl_cons, ih]
    by_cases hr : cstr r.task = cstr sel
    · have h0 : strcmp r.task sel = 0 := (strcmp_eq_zero_iff _ _).mpr hr
      simp only [totalStep, h0, if_true, withTask, List.filter_cons, hr, decide_True,
        List.foldl_cons]
    · have h0 : ¬ strcmp r.task sel = 0 := fun h => hr ((strcmp_eq_zero_iff _ _).mp h)
      simp only [totalStep, h0, if_false, withTask, List.filter_cons, hr, decide_False]
      rfl

theorem strtok_sublist (rest : List Nat) :
    (∀ t, (strtok rest).1 = some t → t.Sublist rest) ∧ (strtok rest).2.Sublist rest := by
  unfold strtok
  have hd := List.dropWhile_sublist (fun c => decide (c = 32)) (l := rest)
  split
  · exact ⟨fun t h => by simp at h, List.nil_sublist _⟩
  · rename_i c cs heq
    rw [heq] at hd
    refine ⟨?_, ?_⟩
    · intro t h
      simp only [Option.some.injEq] at h
      rw [← h]
      exact (List.takeWhile_sublist _).trans hd
    · exact ((List.drop_sublist _ _).trans (List.dropWhile_sublist _)).trans hd

theorem taskToken_no_zero (line t : List Nat) (h : taskToken line = some t) : 0 ∉ t := by
  intro h0
  have h1 := (strtok_sublist (strtok (cstr line)).2).1 t h
  have h2 := (strtok_sublist (cstr line)).2
  exact cstr_no_zero line ((h1.trans h2).subset h0)

theorem cstr_strcpy (dst src : List Nat) (h : 0 ∉ src) : cstr (strcpy dst src) = src := by
  unfold strcpy
  rw [cstr_of_no_zero src h]
  exact cstr_append_zero _ _ h

theorem prepareAverage_task (line : List Nat) (stack : Statement) :
    (prepareAverage line stack).2.selectedTask =
      strcpy stack.selectedTask (match taskToken line with
        | none => starLit
        | some task => task) := by
  unfold prepareAverage taskToken
  rcases strtok (cstr line) with ⟨kw, r1⟩
  dsimp only

theorem cstr_starLit : cstr starLit = [42] := by decide

theorem cstr_strcpy_starLit (dst : List Nat) : cstr (strcpy dst starLit) = [42] := by
  unfold strcpy
  rw [cstr_starLit]
  exact cstr_append_zero [42] _ (by decide)

/-- C10 (counterexample to the claim as stated). `average *` is given the task
name `*`; in the table whose one row has the task `writeup` no row has the task
`*`, yet the loop of `executeAverage` counts one contributing row. -/
theorem C10_star_counts_every_row :
    taskToken averageStar = some [42] ∧
    (scanRows oneRowTable).map (fun s => s.1.map (fun r => cstr r.task))
      = .ok [[119, 114, 105, 116, 101, 117, 112]] ∧
    (scanRows oneRowTable).map (fun s => (withTask [42] s.1).length) = .ok 0 ∧
    (forLoop oneRowTable.numRows
      (averageBody nullFloat (prepareAverage averageStar sampleEnv.stack).2)
      ((nullFloat.ofInt 0, 0), oneRowTable)).map (fun s => s.1.2) = .ok 1 :=
  ⟨by decide, rfl, rfl, rfl⟩

theorem prepareInsert_ok (fl : FloatOps) (now line : List Nat) (stmt : Statement)
    (task hs : List Nat) (ht : taskToken line = some task) (hh : hoursToken line = some hs)
    (hlen : task.length ≤ COLUMN_TASK_SIZE) :
    prepareInsert fl now line stmt =
      (PrepareResult.PREPARE_SUCCESS,
        { type := StatementType.STATEMENT_INSERT
          rowToInsert :=
            { task := strcpy stmt.rowToInsert.task task
              hours := fl.ofInt (atoi hs)
              date := strcpy stmt.rowToInsert.date now }
          selectedTask := stmt.selectedTask }) := by
  unfold taskToken at ht
  unfold hoursToken at hh
  unfold prepareInsert
  revert ht hh
  rcases strtok (cstr line) with ⟨kw, r1⟩
  dsimp only
  rcases strtok r1 with ⟨task', r2⟩
  dsimp only
  rcases strtok r2 with ⟨hs', r3⟩
  dsimp only
  intro ht hh
  subst ht hh
  have : ¬ task.length > COLUMN_TASK_SIZE := by omega
  simp only [this, if_false]

theorem prepareTotal_ok (line : List Nat) (stmt : Statement) (task : List Nat)
    (ht : taskToken line = some task) :
    prepareTotal line stmt =
      (PrepareResult.PREPARE_SUCCESS,
        { type := StatementType.STATEMENT_TOTAL
          rowToInsert := stmt.rowToInsert
          selectedTask := strcpy stmt.selectedTask task }) := by
  unfold taskToken at ht
  unfold prepareTotal
  revert ht
  rcases strtok (cstr line) with ⟨kw, r1⟩
  dsimp only
  rcases strtok r1 with ⟨task', r2⟩
  dsimp only
  intro ht
  subst ht
  rfl

theorem prepareAverage_eq (line : List Nat) (stmt : Statement) :
    prepareAverage line stmt =
      (PrepareResult.PREPARE_SUCCESS,
        { type := StatementType.STATEMENT_AVERAGE
          rowToInsert := stmt.rowToInsert
          selectedTask := strcpy stmt.selectedTask (match taskToken line with
            | none => starLit
            | some task => task) }) := by
  unfold prepareAverage taskToken
  rcases strtok (cstr line) with ⟨kw, r1⟩
  dsimp only

theorem mainStep_success (fl : FloatOps) (env : Env) (t t1 : Table) (line : List Nat)
    (stmt : Statement) (out : List Output) (hdot : ¬ line.head? = some 46)
    (hp : prepareStatement fl env.now line env.stack = (PrepareResult.PREPARE_SUCCESS, stmt))
    (he : executeStatement fl stmt t = .ok (ExecuteResult.EXECUTE_SUCCESS, out, t1)) :
    mainStep fl env t line = .ok (Step.next t1 out) := by
  unfold mainStep
  rw [if_neg hdot, hp]
  simp only [he, bind, Except.bind, pure, Except.pure]

theorem mainLoop_next (fl : FloatOps) (env : Env) (t t1 : Table) (line : List Nat)
    (out : List Output) (rest : List (Env × List Nat))
    (h : mainStep fl env t line = .ok (Step.next t1 out)) :
    mainLoop fl t ((env, line) :: rest) =
      mainLoop fl t1 rest >>= fun r => pure (out ++ r.1, r.2) := by
  simp only [mainLoop, h, bind, Except.bind, pure, Except.pure]

theorem executeTotal_stored (fl : FloatOps) (stmt : Statement) (t : Table) (rows : List Row)
    (hs : Stored t rows) :
    executeTotal fl stmt t = .ok (ExecuteResult.EXECUTE_SUCCESS,
      [Output.total (cstr stmt.selectedTask)
        ((withTask (cstr stmt.selectedTask) (rows.map Row.stored)).foldl
          (fun total row => fl.add total row.hours) (fl.ofInt 0))], t) := by
  rw [executeTotal_scan, scanRows_stored t rows hs]
  simp only [bind, Except.bind, pure, Except.pure, foldl_totalStep]

theorem executeAverage_stored (fl : FloatOps) (stmt : Statement) (t : Table) (rows : List Row)
    (hs : Stored t rows) :
    executeAverage fl stmt t = .ok (ExecuteResult.EXECUTE_SUCCESS,
      [averageLine fl stmt.selectedTask
        ((rows.map Row.stored).foldl (averageStep fl stmt.selectedTask) (fl.ofInt 0, 0))], t) := by
  rw [executeAverage_scan, scanRows_stored t rows hs]
  rfl

theorem stored_insert_row (fl : FloatOps) (dst date text : List Nat) (n : Int)
    (h0 : 0 ∉ text) (hlen : text.length ≤ TASK_SIZE) :
    cstr (Row.stored (Row.mk (strcpy dst text) (fl.ofInt n) date)).task = text ∧
    (Row.stored (Row.mk (strcpy dst text) (fl.ofInt n) date)).hours = fl.ofInt n := by
  refine ⟨?_, ?_⟩
  · show cstr (strncpy (strcpy dst text) TASK_SIZE) = text
    rw [cstr_strncpy _ _ (by rw [cstr_strcpy _ _ h0]; exact hlen), cstr_strcpy _ _ h0]
  · show memcpy (fl.ofInt n) HOURS_SIZE = fl.ofInt n
    have := memcpy_self (fl.ofInt n)
    rw [fl.ofInt_length] at this
    exact this

theorem insert_step (fl : FloatOps) (env : Env) (t : Table) (rows : List Row)
    (line task hs : List Nat) (hst : Stored t rows) (hlt : rows.length < TABLE_MAX_ROWS)
    (hins : strncmp line insertLit 6 = 0) (ht : taskToken line = some task)
    (hh : hoursToken line = some hs) (hlen : task.length ≤ COLUMN_TASK_SIZE) :
    ∃ t1, mainStep fl env t line = .ok (Step.next t1 []) ∧
      Stored t1 (rows ++ [Row.mk (strcpy env.stack.rowToInsert.task task) (fl.ofInt (atoi hs))
        (strcpy env.stack.rowToInsert.date env.now)]) := by
  have hp : prepareStatement fl env.now line env.stack =
      prepareInsert fl env.now line env.stack := by
    unfold prepareStatement
    rw [if_pos hins]
  rw [prepareInsert_ok fl env.now line env.stack task hs ht hh hlen] at hp
  obtain ⟨t1, he, hs1, _⟩ := stored_insert
    { type := StatementType.STATEMENT_INSERT
      rowToInsert := Row.mk (strcpy env.stack.rowToInsert.task task) (fl.ofInt (atoi hs))
        (strcpy env.stack.rowToInsert.date env.now)
      selectedTask := env.stack.selectedTask } t rows hst hlt
  refine ⟨t1, ?_, hs1⟩
  apply mainStep_success fl env t t1 line _ [] (by rw [head_of_insert line hins]; decide) hp
  simp only [executeStatement, he, bind, Except.bind, pure, Except.pure]

theorem total_step (fl : FloatOps) (env : Env) (t : Table) (rows : List Row)
    (line task : List Nat) (hst : Stored t rows)
    (h1 : ¬ strncmp line insertLit 6 = 0) (h2 : ¬ strcmp line selectLit = 0)
    (h3 : strncmp line totalLit 5 = 0) (hdot : ¬ line.head? = some 46)
    (ht : taskToken line = some task) :
    mainStep fl env t line = .ok (Step.next t
      [Output.total task (sumHours fl (withTask task (rows.map Row.stored)))]) := by
  have hp : prepareStatement fl env.now line env.stack = prepareTotal line env.stack := by
    unfold prepareStatement
    rw [if_neg h1, if_neg h2, if_pos h3]
  rw [prepareTotal_ok line env.stack task ht] at hp
  apply mainStep_success fl env t t line _ _ hdot hp
  simp only [executeStatement]
  rw [executeTotal_stored fl _ t rows hst]
  simp only [cstr_strcpy _ _ (taskToken_no_zero line task ht), sumHours]

theorem average_step (fl : FloatOps) (env : Env) (t : Table) (rows : List Row)
    (line : List Nat) (hst : Stored t rows)
    (h1 : ¬ strncmp line insertLit 6 = 0) (h2 : ¬ strcmp line selectLit = 0)
    (h3 : ¬ strncmp line totalLit 5 = 0) (h4 : strncmp line averageLit 7 = 0)
    (hdot : ¬ line.head? = some 46) :
    mainStep fl env t line = .ok (Step.next t
      [averageLine fl (prepareAverage line env.stack).2.selectedTask
        ((rows.map Row.stored).foldl
          (averageStep fl (prepareAverage line env.stack).2.selectedTask) (fl.ofInt 0, 0))]) := by
  have hp : prepareStatement fl env.now line env.stack =
      (PrepareResult.PREPARE_SUCCESS, (prepareAverage line env.stack).2) := by
    unfold prepareStatement
    rw [if_neg h1, if_neg h2, if_neg h3, if_pos h4, prepareAverage_eq]
  apply mainStep_success fl env t t line _ _ hdot hp
  have hty : (prepareAverage line env.stack).2.type = StatementType.STATEMENT_AVERAGE := by
    rw [prepareAverage_eq]
  simp only [executeStatement, hty]
  exact executeAverage_stored fl _ t rows hst

/-- C9 (evaluation at the failing input). On a fresh empty database the six
commands of the scenario print three lines.  `atoi` reads `2.5`, `1.5` and `3.0`
as 2, 1 and 3, and those integers are what the rows store: `total writeup`
prints `0 + 2 + 1` (3.00, not 4.00), `average writeup` prints `(0 + 2 + 1) / 2`
(1.50, not 2.00) and `average` prints `(0 + 2 + 1 + 3) / 3` (2.00, not 2.33),
whatever the float arithmetic, the heap and the stack hold. -/
theorem C9_scenario_hours_truncated (fl : FloatOps) (heap : Nat → Mem)
    (e1 e2 e3 e4 e5 e6 : Env) :
    atoi [50, 46, 53] = 2 ∧ atoi [49, 46, 53] = 1 ∧ atoi [51, 46, 48] = 3 ∧
    ∃ t, mainLoop fl (openDB [] heap)
        [(e1, insertWriteup25), (e2, insertWriteup15), (e3, insertReview30),
          (e4, totalWriteup), (e5, averageWriteup), (e6, averageAll)] =
      .ok ([Output.total writeupText
              (fl.add (fl.add (fl.ofInt 0) (fl.ofInt 2)) (fl.ofInt 1)),
            Output.average writeupText
              (fl.div (fl.add (fl.add (fl.ofInt 0) (fl.ofInt 2)) (fl.ofInt 1)) (fl.ofInt 2)),
            Output.globalAverage
              (fl.div (fl.add (fl.add (fl.add (fl.ofInt 0) (fl.ofInt 2)) (fl.ofInt 1))
                (fl.ofInt 3)) (fl.ofInt 3))], some t) := by
  refine ⟨by decide, by decide, by decide, ?_⟩
  have hmax : TABLE_MAX_ROWS = 5800 := TABLE_MAX_ROWS_eq
  obtain ⟨t1, m1, s1⟩ := insert_step fl e1 (openDB [] heap) [] insertWriteup25 writeupText
    [50, 46, 53] (stored_open_empty heap) (by rw [hmax]; decide) (by decide) (by decide)
    (by decide) (by decide)
  obtain ⟨t2, m2, s2⟩ := insert_step fl e2 t1 _ insertWriteup15 writeupText
    [49, 46, 53] s1 (by rw [hmax]; simp) (by decide) (by decide) (by decide) (by decide)
  obtain ⟨t3, m3, s3⟩ := insert_step fl e3 t2 _ insertReview30 reviewText
    [51, 46, 48] s2 (by rw [hmax]; simp) (by decide) (by decide) (by decide) (by decide)
  have a1 : atoi [50, 46, 53] = 2 := by decide
  have a2 : atoi [49, 46, 53] = 1 := by decide
  have a3 : atoi [51, 46, 48] = 3 := by decide
  rw [a1] at s1 s2 s3
  rw [a2] at s2 s3
  rw [a3] at s3
  have m4 := total_step fl e4 t3 _ totalWriteup writeupText s3 (by decide) (by decide)
    (by decide) (by decide) (by decide)
  have m5 := average_step fl e5 t3 _ averageWriteup s3 (by decide) (by decide) (by decide)
    (by decide) (by decide)
  have m6 := average_step fl e6 t3 _ averageAll s3 (by decide) (by decide) (by decide)
    (by decide) (by decide)
  obtain ⟨c1, d1⟩ := stored_insert_row fl e1.stack.rowToInsert.task
    (strcpy e1.stack.rowToInsert.date e1.now) writeupText 2 (by decide) (by decide)
  obtain ⟨c2, d2⟩ := stored_insert_row fl e2.stack.rowToInsert.task
    (strcpy e2.stack.rowToInsert.date e2.now) writeupText 1 (by decide) (by decide)
  obtain ⟨c3, d3⟩ := stored_insert_row fl e3.stack.rowToInsert.task
    (strcpy e3.stack.rowToInsert.date e3.now) reviewText 3 (by decide) (by decide)
  have hw : withTask writeupText
      (List.map Row.stored
        ([] ++ [Row.mk (strcpy e1.stack.rowToInsert.task writeupText) (fl.ofInt 2)
            (strcpy e1.stack.rowToInsert.date e1.now)] ++
          [Row.mk (strcpy e2.stack.rowToInsert.task writeupText) (fl.ofInt 1)
            (strcpy e2.stack.rowToInsert.date e2.now)] ++
          [Row.mk (strcpy e3.stack.rowToInsert.task reviewText) (fl.ofInt 3)
            (strcpy e3.stack.rowToInsert.date e3.now)])) =
      [Row.stored (Row.mk (strcpy e1.stack.rowToInsert.task writeupText) (fl.ofInt 2)
          (strcpy e1.stack.rowToInsert.date e1.now)),
        Row.stored (Row.mk (strcpy e2.stack.rowToInsert.task writeupText) (fl.ofInt 1)
          (strcpy e2.stack.rowToInsert.date e2.now))] := by
    have hne : ¬ reviewText = writeupText := by decide
    simp only [withTask, List.nil_append, List.cons_append, List.map_cons, List.map_nil,
      List.filter_cons, c1, c2, c3, decide_True, if_true, hne, decide_False, List.filter_nil]
    rfl
  have hsel5 : cstr (prepareAverage averageWriteup e5.stack).2.selectedTask = writeupText := by
    rw [prepareAverage_task, (by decide : taskToken averageWriteup = some writeupText)]
    exact cstr_strcpy _ _ (by decide)
  have hstar5 : ¬ strcmp (prepareAverage averageWriteup e5.stack).2.selectedTask starLit = 0 := by
    rw [strcmp_eq_zero_iff, hsel5, cstr_starLit]
    decide
  have hsel6 : cstr (prepareAverage averageAll e6.stack).2.selectedTask = [42] := by
    rw [prepareAverage_task, (by decide : taskToken averageAll = none)]
    exact cstr_strcpy_starLit _
  have hstar6 : strcmp (prepareAverage averageAll e6.stack).2.selectedTask starLit = 0 := by
    rw [strcmp_eq_zero_iff, hsel6, cstr_starLit]
  rw [foldl_averageStep_task fl _ hstar5, hsel5, hw] at m5
  rw [foldl_averageStep_all fl _ hstar6] at m6
  rw [hw] at m4
  refine ⟨t3, ?_⟩
  rw [mainLoop_next fl e1 _ t1 _ _ _ m1, mainLoop_next fl e2 _ t2 _ _ _ m2,
    mainLoop_next fl e3 _ t3 _ _ _ m3, mainLoop_next fl e4 _ t3 _ _ _ m4,
    mainLoop_next fl e5 _ t3 _ _ _ m5, mainLoop_next fl e6 _ t3 _ _ _ m6]
  simp only [mainLoop, bind, Except.bind, pure, Except.pure, averageLine, hstar5, hstar6,
    not_false_eq_true, not_true_eq_false, if_true, if_false, hsel5, sumHours,
    List.nil_append, List.cons_append, List.map_cons, List.map_nil, List.foldl_cons,
    List.foldl_nil, List.length_cons, List.length_nil, d1, d2, d3, List.append_nil]
  rfl

theorem prepareTotal_selected (line : List Nat) (stack : Statement) (t : List Nat)
    (ht : taskToken line = some t) :
    cstr (prepareTotal line stack).2.selectedTask = t := by
  rw [prepareTotal_ok line stack t ht]
  exact cstr_strcpy _ _ (taskToken_no_zero line t ht)

theorem strcpy_length (dst src : List Nat) :
    (strcpy dst src).length = max dst.length ((cstr src).length + 1) := by
  simp only [strcpy, List.length_append, List.length_cons, List.length_drop]
  omega

theorem totalStep_other (fl : FloatOps) (sel total : List Nat) (r : Row)
    (h : cstr r.task ≠ cstr sel) : totalStep fl sel total r = total := by
  have h0 : ¬ strcmp r.task sel = 0 := fun e => h ((strcmp_eq_zero_iff _ _).mp e)
  simp only [totalStep, h0, if_false]

theorem serializeRow_outside (row : Row) (m : Mem) (dest a : Nat)
    (h : a < dest ∨ dest + ROW_SIZE ≤ a) : serializeRow row m dest a = m a := by
  have e1 : (strncpy row.task TASK_SIZE).length = 33 := strncpy_length _ _
  have e2 : (memcpy row.hours HOURS_SIZE).length = 4 := memcpy_length _ _
  have e3 : (memcpy row.date DATE_SIZE).length = 33 := memcpy_length _ _
  rw [ROW_SIZE_eq] at h
  have c1 : ¬ (dest + DATE_OFFSET ≤ a ∧ a < dest + DATE_OFFSET + 33) := by
    simp only [DATE_OFFSET, HOURS_OFFSET, TASK_OFFSET, TASK_SIZE, HOURS_SIZE, COLUMN_TASK_SIZE]
    omega
  have c2 : ¬ (dest + HOURS_OFFSET ≤ a ∧ a < dest + HOURS_OFFSET + 4) := by
    simp only [HOURS_OFFSET, TASK_OFFSET, TASK_SIZE, COLUMN_TASK_SIZE]
    omega
  have c3 : ¬ (dest + TASK_OFFSET ≤ a ∧ a < dest + TASK_OFFSET + 33) := by
    simp only [TASK_OFFSET]
    omega
  simp only [serializeRow, memWrite, e1, e2, e3, c1, c2, c3, if_false]

/-- C12. A page holds a whole number of rows: `ROWS_PER_PAGE` is the floor of
`PAGE_SIZE / ROW_SIZE`, that many rows fit in a page, and for every row index
`i` the range `[(i % ROWS_PER_PAGE) * ROW_SIZE, ... + ROW_SIZE)` ends inside the
page; whatever slot `getRowSlot` returns has that property, and it returns one
for every index below `TABLE_MAX_ROWS`. -/
theorem C12_whole_rows (t : Table) (i : Nat) :
    ROWS_PER_PAGE = PAGE_SIZE / ROW_SIZE ∧ ROWS_PER_PAGE * ROW_SIZE ≤ PAGE_SIZE ∧
    i % ROWS_PER_PAGE * ROW_SIZE + ROW_SIZE ≤ PAGE_SIZE ∧
    (∀ slot t', getRowSlot t i = .ok (slot, t') → slot.byteOffset + ROW_SIZE ≤ PAGE_SIZE) ∧
    (i < TABLE_MAX_ROWS → ∃ slot t', getRowSlot t i = .ok (slot, t') ∧
      slot.byteOffset + ROW_SIZE ≤ PAGE_SIZE) := by
  have hin : i % ROWS_PER_PAGE * ROW_SIZE + ROW_SIZE ≤ PAGE_SIZE := by
    have := Nat.mod_lt i (by decide : ROWS_PER_PAGE > 0)
    rw [ROWS_PER_PAGE_eq] at this ⊢
    rw [ROW_SIZE_eq, PAGE_SIZE_eq]
    omega
  refine ⟨rfl, by decide, hin, ?_, ?_⟩
  · intro slot t' h
    rw [(getRowSlot_eq t i slot t' h).2.1]
    exact hin
  · intro hi
    obtain ⟨slot, t', h⟩ := getRowSlot_ok t i (page_lt_of_row_lt i hi)
    refine ⟨slot, t', h, ?_⟩
    rw [(getRowSlot_eq t i slot t' h).2.1]
    exact hin

/-- Witness for C12: the last row of page 0 ends at byte 4060 of the page. -/
theorem C12_whole_rows_witness :
    57 % ROWS_PER_PAGE * ROW_SIZE + ROW_SIZE ≤ PAGE_SIZE ∧
    ∃ slot t', getRowSlot (openDB [] zeroHeap) 57 = .ok (slot, t') ∧
      slot.byteOffset + ROW_SIZE ≤ PAGE_SIZE :=
  ⟨(C12_whole_rows (openDB [] zeroHeap) 57).2.2.1,
    (C12_whole_rows (openDB [] zeroHeap) 57).2.2.2.2 (by decide)⟩

/-- C13. For every row, terminated or not, every memory and every destination
offset: the three fields are laid out at offsets 0, 33 and 37 of the row,
adjacent and in that order, and fill its `ROW_SIZE = 70` bytes; after
`serializeRow` the task range holds the 33 bytes `strncpy` produces, the hours
range the 4 hours bytes and the date range the 33 date bytes; and every byte
before the destination or from `ROW_SIZE` bytes after it is unchanged. -/
theorem C13_serialize_frame (row : Row) (m : Mem) (dest : Nat) :
    TASK_OFFSET = 0 ∧ HOURS_OFFSET = TASK_OFFSET + TASK_SIZE ∧
    DATE_OFFSET = HOURS_OFFSET + HOURS_SIZE ∧ ROW_SIZE = DATE_OFFSET + DATE_SIZE ∧
    (strncpy row.task TASK_SIZE).length = TASK_SIZE ∧
    memRead (serializeRow row m dest) (dest + TASK_OFFSET) TASK_SIZE
      = strncpy row.task TASK_SIZE ∧
    memRead (serializeRow row m dest) (dest + HOURS_OFFSET) HOURS_SIZE
      = memcpy row.hours HOURS_SIZE ∧
    memRead (serializeRow row m dest) (dest + DATE_OFFSET) DATE_SIZE
      = memcpy row.date DATE_SIZE ∧
    (∀ a, a < dest ∨ dest + ROW_SIZE ≤ a → serializeRow row m dest a = m a) := by
  have h := deserialize_serialize row m dest
  refine ⟨rfl, rfl, rfl, rfl, strncpy_length _ _, ?_, ?_, ?_, ?_⟩
  · exact congrArg Row.task h
  · exact congrArg Row.hours h
  · exact congrArg Row.date h
  · intro a ha
    exact serializeRow_outside row m dest a ha

/-- Witness for C13: an unterminated task written at offset 70 leaves byte 69
and byte 140 of a zeroed page as they were. -/
theorem C13_serialize_frame_witness :
    memRead (serializeRow unterminatedRow (zeroHeap 0) 70) (70 + TASK_OFFSET) TASK_SIZE
      = strncpy unterminatedRow.task TASK_SIZE ∧
    serializeRow unterminatedRow (zeroHeap 0) 70 69 = zeroHeap 0 69 ∧
    serializeRow unterminatedRow (zeroHeap 0) 70 140 = zeroHeap 0 140 :=
  ⟨(C13_serialize_frame unterminatedRow (zeroHeap 0) 70).2.2.2.2.2.1,
    (C13_serialize_frame unterminatedRow (zeroHeap 0) 70).2.2.2.2.2.2.2.2 69 (Or.inl (by decide)),
    (C13_serialize_frame unterminatedRow (zeroHeap 0) 70).2.2.2.2.2.2.2.2 140
      (Or.inr (by decide))⟩

theorem pagerFlush_fields (p : Pager) (i size : Nat) (page : Mem)
    (hi : i < TABLE_MAX_PAGES) (hp : p.pages i = some page) :
    ∃ p', pagerFlush p i size = .ok p' ∧ p'.pages = p.pages ∧
      p'.trace = FileOp.write (i * PAGE_SIZE) size :: p.trace ∧
      p'.file = fileWrite p.file (i * PAGE_SIZE) (memRead page 0 size) :=
  ⟨_, pagerFlush_populated p i size page hi hp, rfl, rfl, rfl⟩

theorem closeFullPage_empty (p : Pager) (i : Nat) (hi : i < TABLE_MAX_PAGES)
    (hp : p.pages i = none) : closeFullPage i p = .ok p := by
  simp only [closeFullPage, pageAt_lt p i hi, hp, bind, Except.bind, pure, Except.pure]

/-- The first loop of `closeDB` on any pager: it returns, its new trace entries
are full-page writes at slots that were populated, the file is untouched when
there are none, and slots from `k` on are as before. -/
theorem closeFull_loop_writes (pager : Pager) :
    ∀ k, k ≤ TABLE_MAX_PAGES →
      ∃ p' new, forLoop k closeFullPage pager = .ok p' ∧ p'.trace = new ++ pager.trace ∧
        (∀ op, op ∈ new → ∃ j pg, j < k ∧ op = FileOp.write (j * PAGE_SIZE) PAGE_SIZE ∧
          pager.pages j = some pg) ∧
        (new = [] → p'.file = pager.file) ∧
        (∀ j, k ≤ j → p'.pages j = pager.pages j) := by
  intro k
  induction k with
  | zero =>
    intro _
    exact ⟨pager, [], rfl, rfl, fun op h => by simp at h, fun _ => rfl, fun _ _ => rfl⟩
  | succ k ih =>
    intro hk
    obtain ⟨p1, new, h1, ht, hw, hf, hpages⟩ := ih (by omega)
    rw [forLoop_succ, h1]
    cases hslot : pager.pages k with
    | none =>
      have hp1 : p1.pages k = none := by rw [hpages k (le_refl _), hslot]
      refine ⟨p1, new, closeFullPage_empty p1 k (by omega) hp1, ht, ?_, hf, ?_⟩
      · intro op hop
        obtain ⟨j, pg, hj, e, hpg⟩ := hw op hop
        exact ⟨j, pg, by omega, e, hpg⟩
      · intro j hj
        exact hpages j (by omega)
    | some page =>
      have hp1 : p1.pages k = some page := by rw [hpages k (le_refl _), hslot]
      refine ⟨_, FileOp.write (k * PAGE_SIZE) PAGE_SIZE :: new,
        closeFullPage_populated p1 k page (by omega) hp1, ?_, ?_, ?_, ?_⟩
      · simp only [setPage, ht, List.cons_append]
      · intro op hop
        rcases List.mem_cons.mp hop with e | hin
        · exact ⟨k, page, by omega, e, hslot⟩
        · obtain ⟨j, pg, hj, e, hpg⟩ := hw op hin
          exact ⟨j, pg, by omega, e, hpg⟩
      · intro h
        exact absurd h (by simp)
      · intro j hj
        have hjk : j ≠ k := by omega
        simp only [setPage, Function.update, hjk, dite_false]
        exact hpages j (by omega)

/-- The last loop of `closeDB`: it returns, leaves file and trace alone and
empties every slot below `k`. -/
theorem free_loop_empties (pager : Pager) :
    ∀ k, k ≤ TABLE_MAX_PAGES →
      ∃ p', forLoop k freePage pager = .ok p' ∧ p'.file = pager.file ∧
        p'.trace = pager.trace ∧ (∀ j, j < k → p'.pages j = none) ∧
        (∀ j, k ≤ j → p'.pages j = pager.pages j) := by
  intro k
  induction k with
  | zero => intro _; exact ⟨pager, rfl, rfl, rfl, fun j h => by omega, fun _ _ => rfl⟩
  | succ k ih =>
    intro hk
    obtain ⟨p1, h1, hf, ht, hnone, hsame⟩ := ih (by omega)
    rw [forLoop_succ, h1]
    cases hp : p1.pages k with
    | none =>
      refine ⟨p1, by simp only [freePage, pageAt_lt p1 k (by omega), hp, bind, Except.bind,
        pure, Except.pure], hf, ht, ?_, ?_⟩
      · intro j hj
        by_cases hjk : j = k
        · rw [hjk, hp]
        · exact hnone j (by omega)
      · intro j hj
        exact hsame j (by omega)
    | some page =>
      refine ⟨setPage p1 k none, by simp only [freePage, pageAt_lt p1 k (by omega), hp, bind,
        Except.bind, pure, Except.pure], hf, ht, ?_, ?_⟩
      · intro j hj
        by_cases hjk : j = k
        · simp [setPage, hjk]
        · simp only [setPage, Function.update, hjk, dite_false]
          exact hnone j (by omega)
      · intro j hj
        have hjk : j ≠ k := by omega
        simp only [setPage, Function.update, hjk, dite_false]
        exact hsame j (by omega)

/-- The step of `closeDB` on the trailing page, on any pager, when the page
index is inside the array or no trailing rows exist. -/
theorem closeTailPage_writes (pager : Pager) (k r : Nat)
    (hk : r > 0 → k < TABLE_MAX_PAGES) :
    ∃ p' new, closeTailPage k r pager = .ok p' ∧ p'.trace = new ++ pager.trace ∧
      (∀ op, op ∈ new → ∃ pg, op = FileOp.write (k * PAGE_SIZE) (r * ROW_SIZE) ∧
        pager.pages k = some pg) ∧
      (new = [] → p'.file = pager.file) := by
  by_cases hr : r > 0
  · have hlt := hk hr
    cases hslot : pager.pages k with
    | none =>
      refine ⟨pager, [], ?_, rfl, fun op h => by simp at h, fun _ => rfl⟩
      simp only [closeTailPage, hr, if_true, pageAt_lt pager k hlt, hslot, bind, Except.bind,
        pure, Except.pure]
    | some page =>
      refine ⟨setPage { pager with
          file := fileWrite pager.file (k * PAGE_SIZE) (memRead page 0 (r * ROW_SIZE))
          trace := FileOp.write (k * PAGE_SIZE) (r * ROW_SIZE) :: pager.trace } k none,
        [FileOp.write (k * PAGE_SIZE) (r * ROW_SIZE)], ?_, ?_, ?_, ?_⟩
      · simp only [closeTailPage, hr, if_true, pageAt_lt pager k hlt, hslot,
          pagerFlush_populated pager k _ page hlt hslot, bind, Except.bind, pure, Except.pure]
      · simp only [setPage, List.singleton_append]
      · intro op hop
        exact ⟨page, List.mem_singleton.mp hop, rfl⟩
      · intro h
        exact absurd h (by simp)
  · refine ⟨pager, [], ?_, rfl, fun op h => by simp at h, fun _ => rfl⟩
    simp only [closeTailPage, hr, if_false, pure, Except.pure]

/-- Closing any table within capacity: `closeDB` returns; every call it adds to
the trace is a write at the offset of a slot that was populated; with no such
write the file is as before; and every slot of the array ends empty. -/
theorem closeDB_writes (t : Table) (h : t.numRows ≤ TABLE_MAX_ROWS) :
    ∃ p new, closeDB t = .ok p ∧ p.trace = new ++ t.pager.trace ∧
      (∀ op, op ∈ new → ∃ j size pg, j < TABLE_MAX_PAGES ∧
        op = FileOp.write (j * PAGE_SIZE) size ∧ t.pager.pages j = some pg) ∧
      (new = [] → p.file = t.pager.file) ∧
      (∀ j, j < TABLE_MAX_PAGES → p.pages j = none) := by
  have hmax := TABLE_MAX_ROWS_eq
  have hk : t.numRows / ROWS_PER_PAGE ≤ TABLE_MAX_PAGES := by
    rw [ROWS_PER_PAGE_eq, TABLE_MAX_PAGES_eq]; omega
  obtain ⟨p1, new1, h1, ht1, hw1, hf1, hpages1⟩ :=
    closeFull_loop_writes t.pager (t.numRows / ROWS_PER_PAGE) hk
  obtain ⟨p2, new2, h2, ht2, hw2, hf2⟩ := closeTailPage_writes p1 (t.numRows / ROWS_PER_PAGE)
    (t.numRows % ROWS_PER_PAGE) (by
      intro hr
      rw [ROWS_PER_PAGE_eq] at hr ⊢
      rw [TABLE_MAX_PAGES_eq]
      omega)
  obtain ⟨p3, h3, hf3, ht3, hnone, _⟩ := free_loop_empties p2 TABLE_MAX_PAGES (le_refl _)
  refine ⟨p3, new2 ++ new1, ?_, ?_, ?_, ?_, hnone⟩
  · unfold closeDB
    simp only [h1, bind, Except.bind, h2, h3]
  · rw [ht3, ht2, ht1, List.append_assoc]
  · intro op hop
    rcases List.mem_append.mp hop with hin | hin
    · obtain ⟨pg, e, hpg⟩ := hw2 op hin
      by_cases hr : t.numRows % ROWS_PER_PAGE > 0
      · refine ⟨_, _, pg, ?_, e, ?_⟩
        · rw [ROWS_PER_PAGE_eq] at hr ⊢
          rw [TABLE_MAX_PAGES_eq]
          omega
        · rw [← hpages1 _ (le_refl _)]
          exact hpg
      · exfalso
        have : closeTailPage (t.numRows / ROWS_PER_PAGE) (t.numRows % ROWS_PER_PAGE) p1
            = .ok p1 := by
          simp only [closeTailPage, hr, if_false, pure, Except.pure]
        rw [this] at h2
        simp only [Except.ok.injEq] at h2
        rw [← h2] at ht2
        have hnil : new2 = [] := by
          have := congrArg List.length ht2
          simp only [List.length_append] at this
          exact List.length_eq_zero.mp (by omega)
        rw [hnil] at hin
        simp at hin
    · obtain ⟨j, pg, hj, e, hpg⟩ := hw1 op hin
      exact ⟨j, PAGE_SIZE, pg, by omega, e, hpg⟩
  · intro hnil
    obtain ⟨e2, e1⟩ := List.append_eq_nil.mp hnil
    rw [hf3, hf2 e2, hf1 e1]

theorem getPage_lt_of_ok (pager : Pager) (n : Nat) (r : Mem × Pager)
    (h : getPage pager n = .ok r) : n < TABLE_MAX_PAGES := by
  by_contra hn
  by_cases h1 : n > TABLE_MAX_PAGES
  · simp [getPage, h1, throw, throwThe, MonadExceptOf.throw] at h
  · have h2 : ¬ n < TABLE_MAX_PAGES := hn
    simp [getPage, h1, pageAt, h2, bind, Except.bind, throw, throwThe,
      MonadExceptOf.throw] at h

/-- Whatever `getPage` returns, every slot that was populated still holds the
same page afterwards. -/
theorem getPage_keeps (pager : Pager) (n : Nat) (page : Mem) (pager' : Pager)
    (h : getPage pager n = .ok (page, pager')) (j : Nat) (pg : Mem)
    (hj : pager.pages j = some pg) : pager'.pages j = some pg := by
  have hn := getPage_lt_of_ok pager n _ h
  by_cases hjn : j = n
  · subst hjn
    rw [getPage_populated pager j pg hn hj] at h
    simp only [Except.ok.injEq, Prod.mk.injEq] at h
    rw [← h.2]
    exact hj
  · obtain ⟨page2, pager2, h2, _, ho, _⟩ := getPage_ok pager n hn
    rw [h2] at h
    simp only [Except.ok.injEq, Prod.mk.injEq] at h
    rw [← h.2, ho j hjn]
    exact hj

theorem fetchRow_inv (t : Table) (i : Nat) (row : Row) (t' : Table)
    (h : fetchRow t i = .ok (row, t')) :
    ∃ page, getPage t.pager (i / ROWS_PER_PAGE) = .ok (page, t'.pager) ∧
      row = deserializeRow page (i % ROWS_PER_PAGE * ROW_SIZE) ∧ t'.numRows = t.numRows := by
  unfold fetchRow at h
  cases hg : getRowSlot t i with
  | error e => simp [hg, bind, Except.bind] at h
  | ok v =>
    obtain ⟨slot, t1⟩ := v
    simp only [hg, bind, Except.bind, pure, Except.pure, Except.ok.injEq, Prod.mk.injEq] at h
    obtain ⟨hr, ht⟩ := h
    subst ht
    obtain ⟨_, hb, hgp, hnum⟩ := getRowSlot_eq t i slot t1 hg
    exact ⟨slot.page, hgp, by rw [← hr, hb], hnum⟩

theorem fetchRow_keeps (t : Table) (i : Nat) (row : Row) (t' : Table)
    (h : fetchRow t i = .ok (row, t')) (j : Nat) (pg : Mem)
    (hj : t.pager.pages j = some pg) : t'.pager.pages j = some pg := by
  obtain ⟨page, hg, _, _⟩ := fetchRow_inv t i row t' h
  exact getPage_keeps t.pager _ page t'.pager hg j pg hj

theorem forLoop_preserves {σ : Type} (P : σ → Prop) (body : Nat → σ → Except Fault σ)
    (hb : ∀ i s s', P s → body i s = .ok s' → P s') :
    ∀ k s s', P s → forLoop k body s = .ok s' → P s' := by
  intro k
  induction k with
  | zero =>
    intro s s' hs h
    simp only [forLoop, pure, Except.pure, Except.ok.injEq] at h
    rw [← h]
    exact hs
  | succ k ih =>
    intro s s' hs h
    rw [forLoop_succ] at h
    cases h1 : forLoop k body s with
    | error e => simp [h1, bind, Except.bind] at h
    | ok s1 =>
      simp only [h1, bind, Except.bind] at h
      exact hb k s1 s' (ih s s1 hs h1) h

/-- A scanning loop whose body fetches a row and then only updates its
accumulator keeps every populated slot, with its content. -/
theorem scanLike_keeps {α : Type} (g : α → Row → α)
    (body : Nat → α × Table → Except Fault (α × Table))
    (hbody : ∀ i s, body i s = fetchRow s.2 i >>= fun p => pure (g s.1 p.1, p.2))
    (j : Nat) (pg : Mem) :
    ∀ k s s', s.2.pager.pages j = some pg → forLoop k body s = .ok s' →
      s'.2.pager.pages j = some pg := by
  apply forLoop_preserves (fun s => s.2.pager.pages j = some pg) body
  intro i s s' hs h
  rw [hbody] at h
  cases hf : fetchRow s.2 i with
  | error e => simp [hf, bind, Except.bind] at h
  | ok v =>
    obtain ⟨row, t'⟩ := v
    simp only [hf, bind, Except.bind, pure, Except.pure, Except.ok.injEq] at h
    rw [← h]
    exact fetchRow_keeps s.2 i row t' hf j pg hs

/-- No statement empties a slot: after `executeStatement` every slot that was
populated is populated. -/
theorem executeStatement_keeps (fl : FloatOps) (stmt : Statement) (t : Table)
    (res : ExecuteResult) (out : List Output) (t' : Table)
    (h : executeStatement fl stmt t = .ok (res, out, t')) (j : Nat) (pg : Mem)
    (hj : t.pager.pages j = some pg) : ∃ pg', t'.pager.pages j = some pg' := by
  unfold executeStatement at h
  cases hty : stmt.type with
  | STATEMENT_INSERT =>
    simp only [hty] at h
    by_cases hfull : t.numRows ≥ TABLE_MAX_ROWS
    · rw [executeInsert_full stmt t hfull] at h
      simp only [bind, Except.bind, pure, Except.pure, Except.ok.injEq, Prod.mk.injEq] at h
      rw [← h.2.2]
      exact ⟨pg, hj⟩
    · obtain ⟨page, pager', hg, _, _, _, he⟩ := executeInsert_ok stmt t (by omega)
      rw [he] at h
      simp only [bind, Except.bind, pure, Except.pure, Except.ok.injEq, Prod.mk.injEq] at h
      rw [← h.2.2]
      by_cases hjn : j = t.numRows / ROWS_PER_PAGE
      · exact ⟨serializeRow stmt.rowToInsert page (t.numRows % ROWS_PER_PAGE * ROW_SIZE),
          by simp [setPage, hjn]⟩
      · refine ⟨pg, ?_⟩
        simp only [setPage, Function.update, hjn, dite_false]
        exact getPage_keeps t.pager _ page pager' hg j pg hj
  | STATEMENT_SELECT =>
    simp only [hty, executeSelect] at h
    cases hl : forLoop t.numRows selectBody ([], t) with
    | error e => simp [hl, bind, Except.bind] at h
    | ok s =>
      simp only [hl, bind, Except.bind, pure, Except.pure, Except.ok.injEq, Prod.mk.injEq] at h
      rw [← h.2.2]
      exact ⟨pg, scanLike_keeps (fun out row => out ++ [printRow row]) selectBody
        (fun _ _ => rfl) j pg _ _ s hj hl⟩
  | STATEMENT_TOTAL =>
    simp only [hty, executeTotal] at h
    cases hl : forLoop t.numRows (totalBody fl stmt) (fl.ofInt 0, t) with
    | error e => simp [hl, bind, Except.bind] at h
    | ok s =>
      simp only [hl, bind, Except.bind, pure, Except.pure, Except.ok.injEq, Prod.mk.injEq] at h
      rw [← h.2.2]
      exact ⟨pg, scanLike_keeps (totalStep fl stmt.selectedTask) (totalBody fl stmt)
        (fun _ _ => rfl) j pg _ _ s hj hl⟩
  | STATEMENT_AVERAGE =>
    simp only [hty, executeAverage] at h
    cases hl : forLoop t.numRows (averageBody fl stmt) ((fl.ofInt 0, 0), t) with
    | error e => simp [hl, bind, Except.bind] at h
    | ok s =>
      simp only [hl, bind, Except.bind, pure, Except.pure, Except.ok.injEq, Prod.mk.injEq] at h
      rw [← h.2.2]
      exact ⟨pg, scanLike_keeps (averageStep fl stmt.selectedTask) (averageBody fl stmt)
        (fun _ _ => rfl) j pg _ _ s hj hl⟩

theorem pagerFlush_keeps (pager : Pager) (i size : Nat) (pager' : Pager)
    (h : pagerFlush pager i size = .ok pager') : pager'.pages = pager.pages := by
  unfold pagerFlush at h
  cases hs : pageAt pager i with
  | error e => simp [hs, bind, Except.bind] at h
  | ok slot =>
    cases slot with
    | none => simp [hs, bind, Except.bind, throw, throwThe, MonadExceptOf.throw] at h
    | some page =>
      simp only [hs, bind, Except.bind, pure, Except.pure, Except.ok.injEq] at h
      rw [← h]

/-- C14. Pager slot invariant.  For every pager and every page index `p` below
`TABLE_MAX_PAGES`: `getPage` returns a page and leaves slot `p` populated with
it; every other slot is unchanged and every slot that was populated still holds
the same page; a second `getPage` returns the same page and changes nothing.  If
slot `p` was already populated, `getPage` returns exactly the page it holds and
the pager is unchanged, trace included, so nothing is read from the file and
nothing written in memory is lost.  `pagerFlush` leaves all slots alone, no
statement executed on a table over this pager empties a populated slot, and
`closeDB` (on a table within capacity) ends with every slot empty. -/
theorem C14_slot_invariant (pager : Pager) (p : Nat) (hp : p < TABLE_MAX_PAGES) :
    (∃ page pager', getPage pager p = .ok (page, pager') ∧
      pager'.pages p = some page ∧
      (∀ j, j ≠ p → pager'.pages j = pager.pages j) ∧
      (∀ j pg, pager.pages j = some pg → pager'.pages j = some pg) ∧
      getPage pager' p = .ok (page, pager')) ∧
    (∀ pg, pager.pages p = some pg → getPage pager p = .ok (pg, pager)) ∧
    (∀ i size pager', pagerFlush pager i size = .ok pager' → pager'.pages = pager.pages) ∧
    (∀ fl stmt numRows res out t',
      executeStatement fl stmt { pager := pager, numRows := numRows } = .ok (res, out, t') →
      ∀ j pg, pager.pages j = some pg → ∃ pg', t'.pager.pages j = some pg') ∧
    (∀ numRows, numRows ≤ TABLE_MAX_ROWS →
      ∃ closed, closeDB { pager := pager, numRows := numRows } = .ok closed ∧
        ∀ j, j < TABLE_MAX_PAGES → closed.pages j = none) := by
  refine ⟨?_, ?_, ?_, ?_, ?_⟩
  · obtain ⟨page, pager', hg, hpop, ho, _⟩ := getPage_ok pager p hp
    exact ⟨page, pager', hg, hpop, ho, getPage_keeps pager p page pager' hg,
      getPage_populated pager' p page hp hpop⟩
  · intro pg hpg
    exact getPage_populated pager p pg hp hpg
  · intro i size pager' h
    exact pagerFlush_keeps pager i size pager' h
  · intro fl stmt numRows res out t' h j pg hj
    exact executeStatement_keeps fl stmt _ res out t' h j pg hj
  · intro numRows hn
    obtain ⟨closed, _, hc, _, _, _, hnone⟩ := closeDB_writes { pager := pager, numRows := numRows } hn
    exact ⟨closed, hc, hnone⟩

/-- Witness for C14: a page changed in memory after it was fetched is returned
as it is, and the pager is the same afterwards. -/
theorem C14_slot_invariant_witness :
    getPage dirtyPager 3 = .ok (memWrite (zeroHeap 3) 0 [7], dirtyPager) :=
  (C14_slot_invariant dirtyPager 3 (by decide)).2.1 (memWrite (zeroHeap 3) 0 [7]) rfl

theorem closeFull_loop_empty (pager : Pager) :
    ∀ k, k ≤ TABLE_MAX_PAGES → (∀ j, j < k → pager.pages j = none) →
      forLoop k closeFullPage pager = .ok pager := by
  intro k
  induction k with
  | zero => intro _ _; rfl
  | succ k ih =>
    intro hk hnone
    rw [forLoop_succ, ih (by omega) (fun j hj => hnone j (by omega))]
    exact closeFullPage_empty pager k (by omega) (hnone k (by omega))

/-- Closing a table whose pager was just opened on a file of 409600 bytes, the
length `closeDB` leaves for a database of `TABLE_MAX_ROWS` rows: the table has
5851 rows, and after the first loop has skipped slots 0 to 99 the trailing-page
step indexes `pages[100]`. -/
theorem closeDB_reopened_full (file : List Nat) (heap : Nat → Mem)
    (hlen : file.length = 409600) :
    (openDB file heap).numRows = 5851 ∧
      closeDB (openDB file heap) = .error Fault.outOfBounds := by
  have hnum : (openDB file heap).numRows = 5851 := by
    simp only [openDB, pagerOpen, hlen, ROW_SIZE_eq]
    norm_num
  refine ⟨hnum, ?_⟩
  have hk : (openDB file heap).numRows / ROWS_PER_PAGE = TABLE_MAX_PAGES := by
    rw [hnum, ROWS_PER_PAGE_eq, TABLE_MAX_PAGES_eq]
  have hr : (openDB file heap).numRows % ROWS_PER_PAGE = 51 := by
    rw [hnum, ROWS_PER_PAGE_eq]
  have h1 := closeFull_loop_empty (openDB file heap).pager TABLE_MAX_PAGES (le_refl _)
    (fun _ _ => rfl)
  have h2 : closeTailPage TABLE_MAX_PAGES 51 (openDB file heap).pager
      = .error Fault.outOfBounds := by
    simp [closeTailPage, pageAt, bind, Except.bind, throw, throwThe, MonadExceptOf.throw]
  unfold closeDB
  simp only [hk, hr, h1, h2, bind, Except.bind]

/-- C15 (evaluation at the failing input). Fill a fresh empty database to
capacity (5800 rows) and close it: the file has 409600 bytes.  `openDB` on that
file reports 5851 rows, and `closeDB` right after it does not leave the file
alone: having skipped the empty slots 0 to 99 it goes on to `pages[100]`, past
the end of the array.  Away from that input the claim holds: on a file of
fewer than 406070 bytes `openDB` then `closeDB` returns with the file and an
empty trace, and on any table within capacity every call `closeDB` issues is a
write at the offset of a slot that was populated. -/
theorem C15_close_after_open (heap heap2 : Nat → Mem) (file : List Nat) (table : Table) :
    (∃ t p, insertRows (openDB [] heap) (List.replicate 5800 writeupRow) =
        .ok (List.replicate 5800 ExecuteResult.EXECUTE_SUCCESS, t) ∧
      closeDB t = .ok p ∧ p.file.length = 409600 ∧
      (openDB p.file heap2).numRows = 5851 ∧
      closeDB (openDB p.file heap2) = .error Fault.outOfBounds) ∧
    (∃ p, closeDB (openDB (file.take 406069) heap) = .ok p ∧
      p.file = file.take 406069 ∧ p.trace = []) ∧
    (table.numRows ≤ TABLE_MAX_ROWS →
      ∃ p new, closeDB table = .ok p ∧ p.trace = new ++ table.pager.trace ∧
        (∀ op, op ∈ new → ∃ j size pg, j < TABLE_MAX_PAGES ∧
          op = FileOp.write (j * PAGE_SIZE) size ∧ table.pager.pages j = some pg) ∧
        (new = [] → p.file = table.pager.file)) := by
  refine ⟨?_, ?_, ?_⟩
  · have h5800 : (List.replicate 5800 writeupRow).length = 5800 := List.length_replicate _ _
    obtain ⟨t, hi, hs, hf⟩ := insertRows_stored (List.replicate 5800 writeupRow)
      (openDB [] heap) [] (stored_open_empty heap) (by
        rw [h5800, TABLE_MAX_ROWS_eq]; decide)
    rw [List.nil_append] at hs
    obtain ⟨p, hc, hl, _⟩ := closeDB_fresh t _ hs (by rw [hf]; rfl)
    rw [h5800] at hi hl
    have hlen : p.file.length = 409600 := by
      rw [hl, ROWS_PER_PAGE_eq, PAGE_SIZE_eq, ROW_SIZE_eq]
    obtain ⟨a, b⟩ := closeDB_reopened_full p.file heap2 hlen
    exact ⟨t, p, hi, hc, hlen, a, b⟩
  · have hn : (openDB (file.take 406069) heap).numRows ≤ TABLE_MAX_ROWS := by
      simp only [openDB, pagerOpen, List.length_take, ROW_SIZE_eq, TABLE_MAX_ROWS_eq]
      omega
    obtain ⟨p, new, hc, ht, hw, hf, _⟩ := closeDB_writes (openDB (file.take 406069) heap) hn
    have hnil : new = [] := by
      cases new with
      | nil => rfl
      | cons op rest =>
        obtain ⟨j, size, pg, _, _, hpg⟩ := hw op (List.mem_cons_self _ _)
        exact absurd hpg (by simp [openDB, pagerOpen])
    refine ⟨p, hc, ?_, ?_⟩
    · rw [hf hnil]
      rfl
    · rw [ht, hnil]
      rfl
  · intro hn
    obtain ⟨p, new, hc, ht, hw, hf, _⟩ := closeDB_writes table hn
    exact ⟨p, new, hc, ht, hw, hf⟩

theorem numPages_eq_fileSpan (n : Nat) :
    n / PAGE_SIZE + (if n % PAGE_SIZE ≠ 0 then 1 else 0) = fileSpan n := by
  unfold fileSpan
  rw [PAGE_SIZE_eq]
  split <;> omega

/-- What `getPage` does on an unpopulated slot inside the array: it reads the
file when `p` is at most the span of the file and not otherwise. -/
theorem getPage_unpopulated (pager : Pager) (p : Nat) (hp : p < TABLE_MAX_PAGES)
    (hnone : pager.pages p = none) :
    (p ≤ fileSpan pager.fileLength →
      getPage pager p = .ok
        (memWrite (pager.heap p) 0 (fileRead pager.file (p * PAGE_SIZE) PAGE_SIZE),
          { setPage pager p
              (some (memWrite (pager.heap p) 0 (fileRead pager.file (p * PAGE_SIZE) PAGE_SIZE)))
            with trace := FileOp.read (p * PAGE_SIZE) PAGE_SIZE :: pager.trace })) ∧
    (fileSpan pager.fileLength < p →
      getPage pager p = .ok (pager.heap p, setPage pager p (some (pager.heap p)))) := by
  have h1 : ¬ p > TABLE_MAX_PAGES := by omega
  refine ⟨?_, ?_⟩
  · intro hle
    rw [← numPages_eq_fileSpan] at hle
    simp only [getPage, h1, if_false, pageAt_lt pager p hp, hnone, bind, Except.bind, hle,
      if_true, pure, Except.pure]
  · intro hlt
    rw [← numPages_eq_fileSpan] at hlt
    have hle : ¬ p ≤ pager.fileLength / PAGE_SIZE +
        (if pager.fileLength % PAGE_SIZE ≠ 0 then 1 else 0) := by omega
    simp only [getPage, h1, if_false, pageAt_lt pager p hp, hnone, bind, Except.bind, hle,
      pure, Except.pure]

/-- C16 (evaluation at the failing input). On a pager just opened on an empty
file the span is 0 pages, so page index 0 is not below the span; `getPage` of
page 0 nevertheless issues a `read` of `PAGE_SIZE` bytes at offset 0, which
delivers nothing and leaves the page as allocated.  In general, on an
unpopulated slot `p` inside the array the code reads at offset `p * PAGE_SIZE`
exactly when `p ≤ span`, one index more than `p < span`, and only allocates
when `span < p`. -/
theorem C16_read_at_span (heap : Nat → Mem) (pager : Pager) (p : Nat) :
    fileSpan (pagerOpen [] heap).fileLength = 0 ∧
    (∃ page pager', getPage (pagerOpen [] heap) 0 = .ok (page, pager') ∧
      pager'.trace = [FileOp.read (0 * PAGE_SIZE) PAGE_SIZE] ∧ (∀ a, page a = heap 0 a)) ∧
    (p < TABLE_MAX_PAGES → pager.pages p = none →
      ∃ page pager', getPage pager p = .ok (page, pager') ∧
        (p ≤ fileSpan pager.fileLength →
          pager'.trace = FileOp.read (p * PAGE_SIZE) PAGE_SIZE :: pager.trace) ∧
        (fileSpan pager.fileLength < p →
          pager'.trace = pager.trace ∧ page = pager.heap p)) := by
  have hspan : fileSpan (pagerOpen [] heap).fileLength = 0 := by
    show fileSpan 0 = 0
    decide
  refine ⟨hspan, ?_, ?_⟩
  · have h := (getPage_unpopulated (pagerOpen [] heap) 0 (by decide) rfl).1
      (by rw [hspan])
    refine ⟨_, _, h, rfl, ?_⟩
    intro a
    simp [memWrite, fileRead, pagerOpen]
  · intro hp hnone
    obtain ⟨h1, h2⟩ := getPage_unpopulated pager p hp hnone
    by_cases hle : p ≤ fileSpan pager.fileLength
    · refine ⟨_, _, h1 hle, fun _ => rfl, ?_⟩
      intro hlt
      omega
    · refine ⟨_, _, h2 (by omega), ?_, fun _ => ⟨rfl, rfl⟩⟩
      intro h
      exact absurd h hle

theorem insertRows_full (rows : List Row) (t : Table) (h : TABLE_MAX_ROWS ≤ t.numRows) :
    insertRows t rows =
      .ok (List.replicate rows.length ExecuteResult.EXECUTE_TABLE_FULL, t) := by
  induction rows with
  | nil => rfl
  | cons r rows ih =>
    simp only [insertRows, executeInsert_full _ t h, ih, bind, Except.bind, pure, Except.pure,
      List.length_cons, List.replicate_succ]

theorem executeInsert_numRows_le (stmt : Statement) (t : Table) (res : ExecuteResult)
    (t' : Table) (hle : t.numRows ≤ TABLE_MAX_ROWS)
    (h : executeInsert stmt t = .ok (res, t')) : t'.numRows ≤ TABLE_MAX_ROWS := by
  by_cases hfull : TABLE_MAX_ROWS ≤ t.numRows
  · rw [executeInsert_full stmt t hfull] at h
    simp only [Except.ok.injEq, Prod.mk.injEq] at h
    rw [← h.2]
    exact hle
  · obtain ⟨page, pager', _, _, _, _, he⟩ := executeInsert_ok stmt t (by omega)
    rw [he] at h
    simp only [Except.ok.injEq, Prod.mk.injEq] at h
    rw [← h.2]
    show t.numRows + 1 ≤ TABLE_MAX_ROWS
    omega

/-- C17 (evaluation at the failing input). Fill a fresh empty database to
capacity and close it; `openDB` on the 409600-byte file it leaves gives
`numRows = 5851`, above `TABLE_MAX_ROWS = 5800`, and no sequence of
`executeInsert` calls changes that (each returns `EXECUTE_TABLE_FULL`).  Row
index 5800 is then below `numRows`, maps to page `100 = TABLE_MAX_PAGES`, and
fetching it runs past the page array.  Away from such files the invariant
holds: a file of fewer than 406070 bytes opens with `numRows ≤ TABLE_MAX_ROWS`,
`executeInsert` never takes `numRows` above `TABLE_MAX_ROWS`, and every index
below `TABLE_MAX_ROWS` maps to a page below `TABLE_MAX_PAGES`. -/
theorem C17_capacity_after_open (heap heap2 : Nat → Mem) (rows : List Row) (file : List Nat)
    (i : Nat) :
    (∃ t p, insertRows (openDB [] heap) (List.replicate 5800 writeupRow) =
        .ok (List.replicate 5800 ExecuteResult.EXECUTE_SUCCESS, t) ∧
      closeDB t = .ok p ∧ p.file.length = 409600 ∧
      (openDB p.file heap2).numRows = 5851 ∧ TABLE_MAX_ROWS < 5851 ∧
      insertRows (openDB p.file heap2) rows =
        .ok (List.replicate rows.length ExecuteResult.EXECUTE_TABLE_FULL, openDB p.file heap2) ∧
      TABLE_MAX_ROWS / ROWS_PER_PAGE = TABLE_MAX_PAGES ∧
      fetchRow (openDB p.file heap2) TABLE_MAX_ROWS = .error Fault.outOfBounds) ∧
    (openDB (file.take 406069) heap).numRows ≤ TABLE_MAX_ROWS ∧
    (∀ stmt t res t', t.numRows ≤ TABLE_MAX_ROWS → executeInsert stmt t = .ok (res, t') →
      t'.numRows ≤ TABLE_MAX_ROWS) ∧
    (i < TABLE_MAX_ROWS → i / ROWS_PER_PAGE < TABLE_MAX_PAGES) := by
  refine ⟨?_, ?_, ?_, page_lt_of_row_lt i⟩
  · have h5800 : (List.replicate 5800 writeupRow).length = 5800 := List.length_replicate _ _
    obtain ⟨t, hi, hs, hf⟩ := insertRows_stored (List.replicate 5800 writeupRow)
      (openDB [] heap) [] (stored_open_empty heap) (by
        rw [h5800, TABLE_MAX_ROWS_eq]; decide)
    rw [List.nil_append] at hs
    obtain ⟨p, hc, hl, _⟩ := closeDB_fresh t _ hs (by rw [hf]; rfl)
    rw [h5800] at hi hl
    have hlen : p.file.length = 409600 := by
      rw [hl, ROWS_PER_PAGE_eq, PAGE_SIZE_eq, ROW_SIZE_eq]
    have hnum := (closeDB_reopened_full p.file heap2 hlen).1
    refine ⟨t, p, hi, hc, hlen, hnum, by rw [TABLE_MAX_ROWS_eq]; decide, ?_, by decide,
      fetchRow_at_limit _⟩
    exact insertRows_full rows _ (by rw [hnum, TABLE_MAX_ROWS_eq]; decide)
  · simp only [openDB, pagerOpen, List.length_take, ROW_SIZE_eq, TABLE_MAX_ROWS_eq]
    omega
  · intro stmt t res t' hle h
    exact executeInsert_numRows_le stmt t res t' hle h

theorem fetchRow_of_getPage (t : Table) (i : Nat) (page : Mem) (pager' : Pager)
    (hg : getPage t.pager (i / ROWS_PER_PAGE) = .ok (page, pager')) :
    fetchRow t i = .ok (deserializeRow page (i % ROWS_PER_PAGE * ROW_SIZE),
      { t with pager := pager' }) := by
  simp only [fetchRow, getRowSlot_of_getPage t i page pager' hg, bind, Except.bind, pure,
    Except.pure]

/-- The page `getPage` returns depends only on the slot asked for, the heap
block, the file and the length probed at open. -/
theorem getPage_page_congr (p1 p2 : Pager) (n : Nat) (hn : n < TABLE_MAX_PAGES)
    (hs : p1.pages n = p2.pages n) (hh : p1.heap = p2.heap) (hf : p1.file = p2.file)
    (hl : p1.fileLength = p2.fileLength) :
    ∃ page a b, getPage p1 n = .ok (page, a) ∧ getPage p2 n = .ok (page, b) := by
  cases h1 : p1.pages n with
  | some pg =>
    exact ⟨pg, p1, p2, getPage_populated p1 n pg hn h1,
      getPage_populated p2 n pg hn (by rw [← hs, h1])⟩
  | none =>
    have h2 : p2.pages n = none := by rw [← hs, h1]
    obtain ⟨a1, b1⟩ := getPage_unpopulated p1 n hn h1
    obtain ⟨a2, b2⟩ := getPage_unpopulated p2 n hn h2
    by_cases hle : n ≤ fileSpan p1.fileLength
    · have e1 := a1 hle
      have e2 := a2 (by rw [← hl]; exact hle)
      rw [← hh, ← hf] at e2
      exact ⟨_, _, _, e1, e2⟩
    · have e1 := b1 (by omega)
      have e2 := b2 (by rw [← hl]; omega)
      rw [← hh] at e2
      exact ⟨_, _, _, e1, e2⟩

/-- C18. Append-only frame.  For every table below capacity and every row to
insert, `executeInsert` succeeds and raises `numRows` by one; in the page of the
new row, as `getPage` returned it, only the `ROW_SIZE` bytes of the slot of
index `numRows` can differ afterwards; every other slot of the pager and the
file are untouched; and for every index `i` below the old `numRows`, decoding
row `i` after the insert gives the same row as decoding it before. -/
theorem C18_append_frame (stmt : Statement) (t : Table) (h : t.numRows < TABLE_MAX_ROWS) :
    ∃ page pager1 page' t',
      getPage t.pager (t.numRows / ROWS_PER_PAGE) = .ok (page, pager1) ∧
      executeInsert stmt t = .ok (ExecuteResult.EXECUTE_SUCCESS, t') ∧
      t'.numRows = t.numRows + 1 ∧
      t'.pager.pages (t.numRows / ROWS_PER_PAGE) = some page' ∧
      (∀ a, a < t.numRows % ROWS_PER_PAGE * ROW_SIZE ∨
          t.numRows % ROWS_PER_PAGE * ROW_SIZE + ROW_SIZE ≤ a → page' a = page a) ∧
      (∀ j, j ≠ t.numRows / ROWS_PER_PAGE → t'.pager.pages j = t.pager.pages j) ∧
      t'.pager.file = t.pager.file ∧
      (∀ i, i < t.numRows → ∃ row ta tb,
        fetchRow t i = .ok (row, ta) ∧ fetchRow t' i = .ok (row, tb)) := by
  have hq := page_lt_of_row_lt _ h
  obtain ⟨page, pager1, hg, hpop, ho, hfile, hflen, hheap⟩ :=
    getPage_ok t.pager (t.numRows / ROWS_PER_PAGE) hq
  obtain ⟨page2, pager2, hg2, _, _, _, he⟩ := executeInsert_ok stmt t h
  rw [hg] at hg2
  simp only [Except.ok.injEq, Prod.mk.injEq] at hg2
  obtain ⟨e1, e2⟩ := hg2
  subst e1 e2
  refine ⟨page, pager1,
    serializeRow stmt.rowToInsert page (t.numRows % ROWS_PER_PAGE * ROW_SIZE), _, hg, he, rfl,
    by simp [setPage], ?_, ?_, by simpa [setPage] using hfile, ?_⟩
  · intro a ha
    exact serializeRow_outside _ _ _ a ha
  · intro j hj
    simp only [setPage, Function.update, hj, dite_false]
    exact ho j hj
  · intro i hi
    have hiq := page_lt_of_row_lt i (by omega)
    by_cases hsame : i / ROWS_PER_PAGE = t.numRows / ROWS_PER_PAGE
    · have hgi : getPage t.pager (i / ROWS_PER_PAGE) = .ok (page, pager1) := by
        rw [hsame]; exact hg
      have hg' : getPage (setPage pager1 (t.numRows / ROWS_PER_PAGE)
            (some (serializeRow stmt.rowToInsert page (t.numRows % ROWS_PER_PAGE * ROW_SIZE))))
          (i / ROWS_PER_PAGE) = .ok
            (serializeRow stmt.rowToInsert page (t.numRows % ROWS_PER_PAGE * ROW_SIZE), _) :=
        getPage_populated _ _ _ hiq (by simp [setPage, hsame])
      have hf' := fetchRow_of_getPage
        { pager := setPage pager1 (t.numRows / ROWS_PER_PAGE)
            (some (serializeRow stmt.rowToInsert page (t.numRows % ROWS_PER_PAGE * ROW_SIZE)))
          numRows := t.numRows + 1 } i _ _ hg'
      rw [deserialize_serialize_disjoint _ _ _ _ (by
        rw [ROWS_PER_PAGE_eq] at hsame ⊢
        rw [ROW_SIZE_eq]
        omega)] at hf'
      exact ⟨_, _, _, fetchRow_of_getPage t i page pager1 hgi, hf'⟩
    · obtain ⟨pg, a, b, ha, hb⟩ := getPage_page_congr t.pager
        (setPage pager1 (t.numRows / ROWS_PER_PAGE)
          (some (serializeRow stmt.rowToInsert page (t.numRows % ROWS_PER_PAGE * ROW_SIZE))))
        (i / ROWS_PER_PAGE) hiq
        (by simp only [setPage, Function.update, hsame, dite_false]; exact (ho _ hsame).symm)
        (by simpa [setPage] using hheap.symm) (by simpa [setPage] using hfile.symm)
        (by simpa [setPage] using hflen.symm)
      exact ⟨_, _, _, fetchRow_of_getPage t i pg a ha, fetchRow_of_getPage _ i pg b hb⟩

/-- Witness for C18: a second insert into the table of one row. -/
theorem C18_append_frame_witness :
    ∃ page pager1 page' t',
      getPage oneRowTable.pager (1 / ROWS_PER_PAGE) = .ok (page, pager1) ∧
      executeInsert writeupInsert oneRowTable = .ok (ExecuteResult.EXECUTE_SUCCESS, t') ∧
      t'.numRows = 1 + 1 ∧
      t'.pager.pages (1 / ROWS_PER_PAGE) = some page' ∧
      (∀ a, a < 1 % ROWS_PER_PAGE * ROW_SIZE ∨
          1 % ROWS_PER_PAGE * ROW_SIZE + ROW_SIZE ≤ a → page' a = page a) ∧
      (∀ j, j ≠ 1 / ROWS_PER_PAGE → t'.pager.pages j = oneRowTable.pager.pages j) ∧
      t'.pager.file = oneRowTable.pager.file ∧
      (∀ i, i < 1 → ∃ row ta tb,
        fetchRow oneRowTable i = .ok (row, ta) ∧ fetchRow t' i = .ok (row, tb)) :=
  C18_append_frame writeupInsert oneRowTable (by decide)

theorem cstr_cstr (buf : List Nat) : cstr (cstr buf) = cstr buf :=
  cstr_of_no_zero _ (cstr_no_zero buf)

theorem strncpy_text (src : List Nat) (n : Nat) : strncpy src n = strncpy (cstr src) n := by
  simp only [strncpy, cstr_cstr]

theorem cstr_strcpy_text (dst src : List Nat) : cstr (strcpy dst src) = cstr src := by
  unfold strcpy
  exact cstr_append_zero _ _ (cstr_no_zero src)

/-- C19 (evaluation at the failing input). `writeupRow` and `dirtyDateRow` have
the same task text, hours and date text and differ in one byte after the date's
terminator; `serializeRow` writes different bytes for them, the difference
lying in the date range, which `memcpy` copies whole.  The same happens to the
rows `prepareStatement` builds for `insert writeup 2` at one and the same time
over two different contents of the statement variable: what the stack held
after the date's terminator goes into the row image.  The task range does
depend on the task text only. -/
theorem C19_date_tail_serialized (r : Row) :
    (cstr writeupRow.task = cstr dirtyDateRow.task ∧ writeupRow.hours = dirtyDateRow.hours ∧
      cstr writeupRow.date = cstr dirtyDateRow.date ∧
      memRead (serializeRow writeupRow (zeroHeap 0) 0) 0 ROW_SIZE
        ≠ memRead (serializeRow dirtyDateRow (zeroHeap 0) 0) 0 ROW_SIZE ∧
      memRead (serializeRow writeupRow (zeroHeap 0) 0) DATE_OFFSET DATE_SIZE
        ≠ memRead (serializeRow dirtyDateRow (zeroHeap 0) 0) DATE_OFFSET DATE_SIZE) ∧
    (cstr cleanPrepared.task = cstr usedPrepared.task ∧ cleanPrepared.hours = usedPrepared.hours ∧
      cstr cleanPrepared.date = cstr usedPrepared.date ∧
      memRead (serializeRow cleanPrepared (zeroHeap 0) 0) 0 ROW_SIZE
        ≠ memRead (serializeRow usedPrepared (zeroHeap 0) 0) 0 ROW_SIZE) ∧
    strncpy r.task TASK_SIZE = strncpy (cstr r.task) TASK_SIZE :=
  ⟨⟨by decide, by decide, by decide, by decide, by decide⟩,
    ⟨by decide, by decide, by decide, by decide⟩, strncpy_text _ _⟩

theorem prepareInsert_success (fl : FloatOps) (now line : List Nat) (stmt : Statement)
    (h : (prepareInsert fl now line stmt).1 = PrepareResult.PREPARE_SUCCESS) :
    ∃ task hs, taskToken line = some task ∧ hoursToken line = some hs ∧
      task.length ≤ COLUMN_TASK_SIZE := by
  rw [prepareInsert_fst] at h
  cases ht : taskToken line with
  | none => simp [ht] at h
  | some task =>
    cases hh : hoursToken line with
    | none => simp [ht, hh] at h
    | some hs =>
      refine ⟨task, hs, rfl, rfl, ?_⟩
      by_contra hlen
      have : task.length > COLUMN_TASK_SIZE := by omega
      simp [ht, hh, this] at h

/-- C20 (evaluation at the failing input). `total` and `average` followed by a
task name of 33 bytes are accepted with `PREPARE_SUCCESS`; the text stored in
`selectedTask` is 33 bytes long, more than `COLUMN_TASK_SIZE = 32`, and with its
terminator the copy takes 34 bytes where the array has 33.  The insert path
does keep its promise: when `prepareStatement` accepts a line that starts with
the insert keyword, the task text stored is at most 32 bytes long and the date
text is the text `asctime` returned (25 bytes for the sample time). -/
theorem C20_unchecked_task_copy (fl : FloatOps) (now line : List Nat) (stack : Statement) :
    ((prepareStatement nullFloat cleanEnv.now totalLongTask cleanEnv.stack).1
        = PrepareResult.PREPARE_SUCCESS ∧
      (cstr (prepareStatement nullFloat cleanEnv.now totalLongTask
        cleanEnv.stack).2.selectedTask).length = 33 ∧
      cleanEnv.stack.selectedTask.length = TASK_SIZE ∧
      (prepareStatement nullFloat cleanEnv.now totalLongTask
        cleanEnv.stack).2.selectedTask.length = 34) ∧
    ((prepareStatement nullFloat cleanEnv.now averageLongTask cleanEnv.stack).1
        = PrepareResult.PREPARE_SUCCESS ∧
      (cstr (prepareStatement nullFloat cleanEnv.now averageLongTask
        cleanEnv.stack).2.selectedTask).length = 33 ∧
      (prepareStatement nullFloat cleanEnv.now averageLongTask
        cleanEnv.stack).2.selectedTask.length = 34) ∧
    COLUMN_TASK_SIZE < 33 ∧ (cstr asctimeSample).length = 25 ∧
    (strncmp line insertLit 6 = 0 →
      (prepareStatement fl now line stack).1 = PrepareResult.PREPARE_SUCCESS →
      (cstr (prepareStatement fl now line stack).2.rowToInsert.task).length ≤ COLUMN_TASK_SIZE ∧
      cstr (prepareStatement fl now line stack).2.rowToInsert.date = cstr now) := by
  refine ⟨⟨by decide, by decide, by decide, by decide⟩, ⟨by decide, by decide, by decide⟩,
    by decide, by decide, ?_⟩
  intro hins hok
  have hp : prepareStatement fl now line stack = prepareInsert fl now line stack := by
    unfold prepareStatement
    rw [if_pos hins]
  rw [hp] at hok ⊢
  obtain ⟨task, hs, ht, hh, hlen⟩ := prepareInsert_success fl now line stack hok
  rw [prepareInsert_ok fl now line stack task hs ht hh hlen]
  refine ⟨?_, cstr_strcpy_text _ _⟩
  show (cstr (strcpy stack.rowToInsert.task task)).length ≤ COLUMN_TASK_SIZE
  rw [cstr_strcpy _ _ (taskToken_no_zero line task ht)]
  exact hlen

theorem deserializeRow_eq_rowOfPage (page : Mem) (off : Nat) :
    deserializeRow page off = rowOfPage page off := rfl

theorem memWrite_zero_getD (m : Mem) (data : List Nat) :
    memWrite m 0 data = fun a => data.getD a (m a) := by
  funext a
  by_cases h : a < data.length
  · simp [memWrite, h, List.getD_eq_getElem?_getD, List.getElem?_eq_getElem h]
  · have h' : data.length ≤ a := by omega
    simp [memWrite, h, List.getD_eq_getElem?_getD, List.getElem?_eq_none h']

/-- The page `getPage` returns is what the slot stood for, and afterwards
every slot stands for what it stood for before. -/
theorem getPage_slotBytes (pager : Pager) (n : Nat) (page : Mem) (pager' : Pager)
    (h : getPage pager n = .ok (page, pager')) :
    page = slotBytes pager n ∧ ∀ q, slotBytes pager' q = slotBytes pager q := by
  have hn := getPage_lt_of_ok pager n _ h
  cases hs : pager.pages n with
  | some pg =>
    rw [getPage_populated pager n pg hn hs] at h
    simp only [Except.ok.injEq, Prod.mk.injEq] at h
    obtain ⟨e1, e2⟩ := h
    subst e1 e2
    exact ⟨by simp only [slotBytes, hs], fun _ => rfl⟩
  | none =>
    obtain ⟨h1, h2⟩ := getPage_unpopulated pager n hn hs
    by_cases hle : n ≤ fileSpan pager.fileLength
    · rw [h1 hle] at h
      simp only [Except.ok.injEq, Prod.mk.injEq] at h
      obtain ⟨e1, e2⟩ := h
      have hpage : page = slotBytes pager n := by
        rw [← e1]
        simp only [slotBytes, hs, hle, if_true, fileRead]
        exact memWrite_zero_getD _ _
      refine ⟨hpage, ?_⟩
      intro q
      rw [← e2]
      by_cases hq : q = n
      · subst hq
        simp only [slotBytes, setPage, Function.update_same]
        rw [e1, hpage]
        simp only [slotBytes, hs]
      · simp only [slotBytes, setPage, Function.update, hq, dite_false]
    · rw [h2 (by omega)] at h
      simp only [Except.ok.injEq, Prod.mk.injEq] at h
      obtain ⟨e1, e2⟩ := h
      have hpage : page = slotBytes pager n := by
        rw [← e1]
        simp only [slotBytes, hs, hle, if_false]
      refine ⟨hpage, ?_⟩
      intro q
      rw [← e2]
      by_cases hq : q = n
      · subst hq
        simp only [slotBytes, setPage, Function.update_same, hs, hle, if_false]
      · simp only [slotBytes, setPage, Function.update, hq, dite_false]

theorem fetchRow_stored_row (t0 t : Table) (i : Nat) (row : Row) (t' : Table)
    (hsame : ∀ q, slotBytes t.pager q = slotBytes t0.pager q)
    (h : fetchRow t i = .ok (row, t')) :
    row = storedRow t0 i ∧ (∀ q, slotBytes t'.pager q = slotBytes t0.pager q) := by
  obtain ⟨page, hg, hrow, _⟩ := fetchRow_inv t i row t' h
  obtain ⟨hp, hq⟩ := getPage_slotBytes t.pager _ page t'.pager hg
  refine ⟨?_, fun q => by rw [hq q, hsame q]⟩
  rw [hrow, deserializeRow_eq_rowOfPage, hp, hsame]
  rfl

/-- A scan of a table within capacity returns the rows the table stores. -/
theorem scanLoop_storedRows (t : Table) :
    ∀ k, k ≤ TABLE_MAX_ROWS →
      ∃ t', forLoop k scanBody ([], t) = .ok ((List.range k).map (storedRow t), t') ∧
        ∀ q, slotBytes t'.pager q = slotBytes t.pager q := by
  intro k
  induction k with
  | zero => intro _; exact ⟨t, rfl, fun _ => rfl⟩
  | succ k ih =>
    intro hk
    obtain ⟨t1, h1, hsame⟩ := ih (by omega)
    obtain ⟨row, t2, hf⟩ := fetchRow_ok t1 k (by omega)
    obtain ⟨hrow, hsame2⟩ := fetchRow_stored_row t t1 k row t2 hsame hf
    refine ⟨t2, ?_, hsame2⟩
    rw [forLoop_succ, h1]
    simp only [scanBody, hf, bind, Except.bind, pure, Except.pure, List.range_succ,
      List.map_append, List.map_cons, List.map_nil, hrow]

theorem scanRows_storedRows (t : Table) (h : t.numRows ≤ TABLE_MAX_ROWS) :
    ∃ t', scanRows t = .ok (storedRows t, t') := by
  obtain ⟨t', h1, _⟩ := scanLoop_storedRows t t.numRows h
  exact ⟨t', h1⟩

theorem forLoop_error_add {σ : Type} (body : Nat → σ → Except Fault σ) (s : σ) (k : Nat)
    (e : Fault) (h : forLoop k body s = .error e) :
    ∀ m, forLoop (k + m) body s = .error e := by
  intro m
  induction m with
  | zero => exact h
  | succ m ih =>
    rw [← Nat.add_assoc, forLoop_succ, ih]
    rfl

/-- A scan of a table beyond capacity runs past the page array at row
`TABLE_MAX_ROWS`. -/
theorem scanRows_beyond (t : Table) (h : TABLE_MAX_ROWS < t.numRows) :
    scanRows t = .error Fault.outOfBounds := by
  obtain ⟨rows, t1, h1, _⟩ := scanLoop_ok t TABLE_MAX_ROWS (le_refl _)
  have hstep : forLoop (TABLE_MAX_ROWS + 1) scanBody ([], t) = .error Fault.outOfBounds := by
    rw [forLoop_succ, h1]
    simp only [scanBody, fetchRow_at_limit, bind, Except.bind]
  have := forLoop_error_add scanBody ([], t) _ _ hstep (t.numRows - (TABLE_MAX_ROWS + 1))
  unfold scanRows
  rw [show t.numRows = TABLE_MAX_ROWS + 1 + (t.numRows - (TABLE_MAX_ROWS + 1)) by omega]
  exact this

theorem prepareAverage_selected (line : List Nat) (stack : Statement) (t : List Nat)
    (ht : taskToken line = some t) :
    cstr (prepareAverage line stack).2.selectedTask = t := by
  rw [prepareAverage_task, ht]
  exact cstr_strcpy _ _ (taskToken_no_zero line t ht)

/-- C10 (as amended). For every table within capacity (beyond it the scan runs
past the page array) and every statement variable, the rows in question being
the rows the table stores (`storedRows`, read off the bytes of its pages and
file): when `average` is given a task name `t` other than `*`, of at most 32
bytes (a longer one is copied past `selectedTask`), it returns
`EXECUTE_SUCCESS` and the value printed is the sum of the hours of exactly the
stored rows whose task text is `t`, in index order, divided by their number;
when no task is given, and also when the task given is `*`, the value printed
is the sum of the hours of all stored rows divided by their number. -/
theorem C10_average_rows (fl : FloatOps) (stack : Statement) (table : Table)
    (line t : List Nat) (hcap : table.numRows ≤ TABLE_MAX_ROWS) :
    (taskToken line = some t → t ≠ [42] → t.length ≤ COLUMN_TASK_SIZE →
      ∃ table', executeAverage fl (prepareAverage line stack).2 table =
        .ok (ExecuteResult.EXECUTE_SUCCESS,
          [Output.average t (fl.div (sumHours fl (withTask t (storedRows table)))
            (fl.ofInt (withTask t (storedRows table)).length))], table')) ∧
    (taskToken line = none ∨ taskToken line = some [42] →
      ∃ table', executeAverage fl (prepareAverage line stack).2 table =
        .ok (ExecuteResult.EXECUTE_SUCCESS,
          [Output.globalAverage (fl.div (sumHours fl (storedRows table))
            (fl.ofInt (storedRows table).length))], table')) := by
  obtain ⟨table', hscan⟩ := scanRows_storedRows table hcap
  refine ⟨?_, ?_⟩
  · intro ht hne _
    have hsel := prepareAverage_selected line stack t ht
    have hstar : ¬ strcmp (prepareAverage line stack).2.selectedTask starLit = 0 := by
      rw [strcmp_eq_zero_iff, hsel, cstr_starLit]
      exact hne
    refine ⟨table', ?_⟩
    rw [executeAverage_scan, hscan]
    simp only [bind, Except.bind, pure, Except.pure, foldl_averageStep_task fl _ hstar,
      averageLine, hstar, not_false_eq_true, if_true, hsel, sumHours, Nat.zero_add]
  · intro hnone
    have hsel : cstr (prepareAverage line stack).2.selectedTask = [42] := by
      rw [prepareAverage_task]
      rcases hnone with h | h
      · rw [h]
        exact cstr_strcpy_starLit _
      · rw [h]
        exact cstr_strcpy _ _ (by decide)
    have hstar : strcmp (prepareAverage line stack).2.selectedTask starLit = 0 := by
      rw [strcmp_eq_zero_iff, hsel, cstr_starLit]
    refine ⟨table', ?_⟩
    rw [executeAverage_scan, hscan]
    simp only [bind, Except.bind, pure, Except.pure, foldl_averageStep_all fl _ hstar,
      averageLine, hstar, not_true_eq_false, if_false, sumHours, Nat.zero_add]

set_option maxRecDepth 100000 in
/-- Witness for C10: on the database file of three rows (`writeup` 4, `writeup`
2, `review` 9), `average writeup` prints (4 + 2) / 2 = 3 over the two `writeup`
rows and `average` prints (4 + 2 + 9) / 3 = 5 over all three. -/
theorem C10_average_rows_witness :
    tallyTable.numRows = 3 ∧
    (∃ table', executeAverage tallyFloat (prepareAverage averageWriteup writeupInsert).2
        tallyTable =
      .ok (ExecuteResult.EXECUTE_SUCCESS,
        [Output.average writeupText
          (tallyFloat.div (sumHours tallyFloat (withTask writeupText (storedRows tallyTable)))
            (tallyFloat.ofInt (withTask writeupText (storedRows tallyTable)).length))],
        table')) ∧
    tallyFloat.div (sumHours tallyFloat (withTask writeupText (storedRows tallyTable)))
      (tallyFloat.ofInt (withTask writeupText (storedRows tallyTable)).length) = [3, 0, 0, 0] ∧
    (∃ table', executeAverage tallyFloat (prepareAverage averageAll writeupInsert).2
        tallyTable =
      .ok (ExecuteResult.EXECUTE_SUCCESS,
        [Output.globalAverage
          (tallyFloat.div (sumHours tallyFloat (storedRows tallyTable))
            (tallyFloat.ofInt (storedRows tallyTable).length))], table')) ∧
    tallyFloat.div (sumHours tallyFloat (storedRows tallyTable))
      (tallyFloat.ofInt (storedRows tallyTable).length) = [5, 0, 0, 0] :=
  ⟨by decide,
    (C10_average_rows tallyFloat writeupInsert tallyTable averageWriteup writeupText
      (by decide)).1 (by decide) (by decide) (by decide),
    by decide,
    (C10_average_rows tallyFloat writeupInsert tallyTable averageAll writeupText
      (by decide)).2 (Or.inl (by decide)),
    by decide⟩

set_option maxRecDepth 100000 in
/-- On the file of four rows `writeup` 4, `writeupx` 16, `writeup` 2, `wri` 32:
`total writeup` prints 6, `total writeupx` prints 16 and `total review`, a task
no row has, prints 0. -/
theorem prefixTable_totals :
    printedBy (executeTotal tallyFloat (prepareTotal totalWriteup writeupInsert).2 prefixTable) =
      .ok (ExecuteResult.EXECUTE_SUCCESS, [Output.total writeupText [6, 0, 0, 0]]) ∧
    printedBy (executeTotal tallyFloat (prepareTotal totalWriteupx writeupInsert).2 prefixTable) =
      .ok (ExecuteResult.EXECUTE_SUCCESS,
        [Output.total [119, 114, 105, 116, 101, 117, 112, 120] [16, 0, 0, 0]]) ∧
    printedBy (executeTotal tallyFloat (prepareTotal totalReview writeupInsert).2 prefixTable) =
      .ok (ExecuteResult.EXECUTE_SUCCESS, [Output.total reviewText [0, 0, 0, 0]]) := by
  refine ⟨?_, ?_, ?_⟩ <;> rfl

/-- C11 (evaluation at the failing input). Fill a fresh empty database to
capacity (5800 rows of task `writeup`) and close it: the file has 409600 bytes
and `openDB` on it reports 5851 rows.  `total writeup` on that table reports no
sum: the scan reaches index 5800, which lies on page 100, one past the page
array; the same holds for `total` on every table with more than
`TABLE_MAX_ROWS` rows.  A task name of 33 bytes is accepted too, and its copy
takes 34 bytes where `selectedTask` has 33.  Away from those inputs the claim
holds, the rows being those the table stores (`storedRows`, read off the bytes
of its pages and file): on every table within capacity, `total` with a task
name `t` of at most 32 bytes (for which `strcmp` stays inside the 33 bytes of a
row's task, terminated or not) returns `EXECUTE_SUCCESS` and prints `0` plus
the hours, in index order, of exactly the stored rows whose task text is `t`;
that is `0` when no
stored row has task `t`; and a row whose task text has `t` as a proper prefix
leaves the running total as it was.  On the sample file of four rows (`writeup` 4,
`writeupx` 16, `writeup` 2, `wri` 32) `total writeup` prints 6,
`total writeupx` prints 16 and `total review` prints 0. -/
theorem C11_total_rows (fl : FloatOps) (heap heap2 : Nat → Mem) (stack : Statement)
    (table : Table) (line t : List Nat) :
    (∃ tb p, insertRows (openDB [] heap) (List.replicate 5800 writeupRow) =
        .ok (List.replicate 5800 ExecuteResult.EXECUTE_SUCCESS, tb) ∧
      closeDB tb = .ok p ∧ p.file.length = 409600 ∧
      (openDB p.file heap2).numRows = 5851 ∧
      executeTotal fl (prepareTotal totalWriteup stack).2 (openDB p.file heap2) =
        .error Fault.outOfBounds) ∧
    (TABLE_MAX_ROWS < table.numRows →
      executeTotal fl (prepareTotal line stack).2 table = .error Fault.outOfBounds) ∧
    (cleanEnv.stack.selectedTask.length = TASK_SIZE ∧
      (prepareStatement nullFloat cleanEnv.now totalLongTask cleanEnv.stack).1
        = PrepareResult.PREPARE_SUCCESS ∧
      (prepareStatement nullFloat cleanEnv.now totalLongTask
        cleanEnv.stack).2.selectedTask.length = TASK_SIZE + 1) ∧
    (table.numRows ≤ TABLE_MAX_ROWS → taskToken line = some t → t.length ≤ COLUMN_TASK_SIZE →
      ∃ table', executeTotal fl (prepareTotal line stack).2 table =
        .ok (ExecuteResult.EXECUTE_SUCCESS,
          [Output.total t (sumHours fl (withTask t (storedRows table)))], table')) ∧
    (withTask t (storedRows table) = [] →
      sumHours fl (withTask t (storedRows table)) = fl.ofInt 0) ∧
    (taskToken line = some t → ∀ total r x, x ≠ [] → cstr r.task = t ++ x →
      totalStep fl (prepareTotal line stack).2.selectedTask total r = total) ∧
    (printedBy (executeTotal tallyFloat (prepareTotal totalWriteup writeupInsert).2
        prefixTable) =
      .ok (ExecuteResult.EXECUTE_SUCCESS, [Output.total writeupText [6, 0, 0, 0]]) ∧
    printedBy (executeTotal tallyFloat (prepareTotal totalWriteupx writeupInsert).2
        prefixTable) =
      .ok (ExecuteResult.EXECUTE_SUCCESS,
        [Output.total [119, 114, 105, 116, 101, 117, 112, 120] [16, 0, 0, 0]]) ∧
    printedBy (executeTotal tallyFloat (prepareTotal totalReview writeupInsert).2
        prefixTable) =
      .ok (ExecuteResult.EXECUTE_SUCCESS, [Output.total reviewText [0, 0, 0, 0]])) := by
  have hbeyond : ∀ (stmt : Statement) (tb : Table), TABLE_MAX_ROWS < tb.numRows →
      executeTotal fl stmt tb = .error Fault.outOfBounds := by
    intro stmt tb h
    rw [executeTotal_scan, scanRows_beyond tb h]
    rfl
  refine ⟨?_, hbeyond _ table, ⟨by decide, by decide, by decide⟩, ?_, ?_, ?_,
    prefixTable_totals⟩
  · have h5800 : (List.replicate 5800 writeupRow).length = 5800 := List.length_replicate _ _
    obtain ⟨tb, hi, hs, hf⟩ := insertRows_stored (List.replicate 5800 writeupRow)
      (openDB [] heap) [] (stored_open_empty heap) (by
        rw [h5800, TABLE_MAX_ROWS_eq]; decide)
    rw [List.nil_append] at hs
    obtain ⟨p, hc, hl, _⟩ := closeDB_fresh tb _ hs (by rw [hf]; rfl)
    rw [h5800] at hi hl
    have hlen : p.file.length = 409600 := by
      rw [hl, ROWS_PER_PAGE_eq, PAGE_SIZE_eq, ROW_SIZE_eq]
    have hnum := (closeDB_reopened_full p.file heap2 hlen).1
    exact ⟨tb, p, hi, hc, hlen, hnum, hbeyond _ _ (by rw [hnum, TABLE_MAX_ROWS_eq]; decide)⟩
  · intro hcap ht _
    have hsel := prepareTotal_selected line stack t ht
    obtain ⟨table', hscan⟩ := scanRows_storedRows table hcap
    refine ⟨table', ?_⟩
    rw [executeTotal_scan, hscan]
    simp only [bind, Except.bind, pure, Except.pure, foldl_totalStep, hsel, sumHours]
  · intro h
    rw [h]
    rfl
  · intro ht total r x hx heq
    apply totalStep_other
    rw [prepareTotal_selected line stack t ht, heq]
    intro h
    have := congrArg List.length h
    simp only [List.length_append] at this
    have : x.length = 0 := by omega
    exact hx (List.length_eq_zero.mp this)

end Tracker
